import Mathlib

set_option maxRecDepth 100000

/-
Shallow embedding of the MBO iceberg-detection programs
(src/icetomultipletopicsv2slowed.py and src/icev3.py).

Modelling conventions:
- Python floats (sizes, prices, timestamps) are embedded as rationals (ℚ);
  the program's arithmetic on them is exact field arithmetic, so ℚ models it
  faithfully up to binary floating-point rounding, which none of the checked
  properties depend on.
- Python object mutation becomes functional record update; dictionaries become
  association lists; `time.time()` becomes an explicit timestamp argument.
- Logging, Telegram transport, MT5 price lookup and the bookmap book objects
  are external I/O: a notification send is modelled as appending a record
  (kind, order id) to an event log, and the rest is dropped.
- Dictionaries that hold aliases of the same mutable order object
  (potential/confirmed/completed icebergs) are modelled as id sets, with the
  single authoritative copy of each order living in active_orders.
-/

namespace MBO

/-- One entry of `replace_events` (dict appended in
`IcebergOrder.add_replace_event`, icetomultipletopicsv2slowed.py). -/
structure ReplaceRecord where
  timestamp : ℚ
  old_size : ℚ
  new_size : ℚ
  size_change : ℚ
  old_price : ℚ
  new_price : ℚ
  price_changed : Bool
  deriving Repr, DecidableEq

/-- One entry of `execution_events` (dict appended in
`IcebergOrder.add_execution`, icetomultipletopicsv2slowed.py). -/
structure ExecutionRecord where
  timestamp : ℚ
  filled_size : ℚ
  remaining_size : ℚ
  deriving Repr, DecidableEq

/-- `class IcebergOrder` of icetomultipletopicsv2slowed.py: per-order state. -/
structure IcebergOrder where
  order_id : Nat
  trader_id : Option Nat
  price : ℚ
  initial_size : ℚ
  current_size : ℚ
  max_visible_size : ℚ
  is_bid : Bool
  timestamp : ℚ
  last_update : ℚ
  last_reported_filled : ℚ
  price_history : List ℚ
  current_price : ℚ
  price_changes : Nat
  total_filled : ℚ
  refill_count : Nat
  size_decrease_count : Nat
  replace_events : List ReplaceRecord
  execution_events : List ExecutionRecord
  is_confirmed_iceberg : Bool
  iceberg_start_time : Option ℚ
  completion_time : Option ℚ
  execution_percentage : ℚ
  consecutive_refills : Nat
  min_size_seen : ℚ
  deriving Repr, DecidableEq

/-- `IcebergOrder.__init__` of icetomultipletopicsv2slowed.py. -/
def IcebergOrder.init (order_id : Nat) (price initial_size : ℚ) (is_bid : Bool)
    (timestamp : ℚ) (trader_id : Option Nat) : IcebergOrder where
  order_id := order_id
  trader_id := trader_id
  price := price
  initial_size := initial_size
  current_size := initial_size
  max_visible_size := initial_size
  is_bid := is_bid
  timestamp := timestamp
  last_update := timestamp
  last_reported_filled := 0
  price_history := [price]
  current_price := price
  price_changes := 0
  total_filled := 0
  refill_count := 0
  size_decrease_count := 0
  replace_events := []
  execution_events := []
  is_confirmed_iceberg := false
  iceberg_start_time := none
  completion_time := none
  execution_percentage := 0
  consecutive_refills := 0
  min_size_seen := initial_size

/-- `IcebergOrder.add_execution` of icetomultipletopicsv2slowed.py: record the
fill, bump `total_filled`, recompute `execution_percentage` against the
estimated total size.  `current_size` is read but never written. -/
def IcebergOrder.add_execution (o : IcebergOrder) (filled_size timestamp : ℚ) :
    IcebergOrder :=
  let o1 : IcebergOrder :=
    { o with
      execution_events :=
        o.execution_events ++ [⟨timestamp, filled_size, o.current_size⟩],
      total_filled := o.total_filled + filled_size,
      last_update := timestamp }
  let estimated_total_size := max (o1.total_filled + o1.current_size) o1.max_visible_size
  if 0 < estimated_total_size then
    { o1 with execution_percentage := o1.total_filled / estimated_total_size }
  else o1

/-- First mutation block of `IcebergOrder.add_replace_event`
(icetomultipletopicsv2slowed.py): on a genuine price change update
`current_price`, extend `price_history` if the price is unseen, and bump
`price_changes`. -/
def IcebergOrder.trackPriceChange (o : IcebergOrder) (new_price : Option ℚ) : IcebergOrder :=
  match new_price with
  | some np =>
    if np ≠ o.current_price then
      { o with
        current_price := np,
        price_history :=
          if np ∈ o.price_history then o.price_history else o.price_history ++ [np],
        price_changes := o.price_changes + 1 }
    else o
  | none => o

/-- Second mutation block of `add_replace_event`: append the replace record.
`old_size`/`old_price` were read before the price block ran.  (The recorded
`new_price` follows the Python truthiness of
`new_price if new_price else old_price`: a price of 0 is falsy.) -/
def IcebergOrder.appendReplaceRecord (o : IcebergOrder)
    (old_size new_size size_change old_price timestamp : ℚ) (new_price : Option ℚ) :
    IcebergOrder :=
  { o with
    replace_events := o.replace_events ++
      [{ timestamp := timestamp
         old_size := old_size
         new_size := new_size
         size_change := size_change
         old_price := old_price
         new_price :=
           match new_price with
           | some np => if np = 0 then old_price else np
           | none => old_price
         price_changed :=
           match new_price with
           | some np => decide (np ≠ old_price)
           | none => false }] }

/-- Third mutation block of `add_replace_event`: a size decrease is treated
as an implicit execution of the delta and counted in
`size_decrease_count`. -/
def IcebergOrder.trackSizeDecrease (o : IcebergOrder) (size_change timestamp : ℚ) :
    IcebergOrder :=
  if size_change < 0 then
    let oe := o.add_execution (abs size_change) timestamp
    { oe with size_decrease_count := oe.size_decrease_count + 1 }
  else o

/-- Fourth mutation block of `add_replace_event`: maintain
`min_size_seen`/`max_visible_size`. -/
def IcebergOrder.trackBounds (o : IcebergOrder) (new_size : ℚ) : IcebergOrder :=
  let o4 : IcebergOrder :=
    if new_size < o.min_size_seen then { o with min_size_seen := new_size } else o
  if o4.max_visible_size < new_size then { o4 with max_visible_size := new_size } else o4

/-- Fifth mutation block of `add_replace_event`: a size increase while below
the initial size is a refill; any other update resets `consecutive_refills`.
(`initial_size` is immutable, so reading it from the threaded state matches
the source's `self.initial_size`.) -/
def IcebergOrder.trackRefill (o : IcebergOrder) (size_change old_size : ℚ) : IcebergOrder :=
  if 0 < size_change ∧ old_size < o.initial_size then
    { o with
      refill_count := o.refill_count + 1,
      consecutive_refills := o.consecutive_refills + 1 }
  else
    { o with consecutive_refills := 0 }

/-- `IcebergOrder.add_replace_event` of icetomultipletopicsv2slowed.py: the
method's successive mutation blocks (factored above, in the source's order)
followed by the final `current_size`/`last_update` assignment. -/
def IcebergOrder.add_replace_event (o : IcebergOrder) (new_size timestamp : ℚ)
    (new_price : Option ℚ) : IcebergOrder :=
  let old_size := o.current_size
  let old_price := o.current_price
  let size_change := new_size - old_size
  let o1 := o.trackPriceChange new_price
  let o2 := o1.appendReplaceRecord old_size new_size size_change old_price timestamp new_price
  let o3 := o2.trackSizeDecrease size_change timestamp
  let o4 := o3.trackBounds new_size
  let o5 := o4.trackRefill size_change old_size
  { o5 with current_size := new_size, last_update := timestamp }

/-- `IcebergOrder.get_execution_ratio` of icetomultipletopicsv2slowed.py. -/
def IcebergOrder.get_execution_ratio (o : IcebergOrder) : ℚ :=
  if 0 < o.max_visible_size then o.total_filled / o.max_visible_size else 0

/-- `IcebergOrder.get_iceberg_score` of icetomultipletopicsv2slowed.py:
sequentially accumulated score, capped at 1. -/
def IcebergOrder.get_iceberg_score (o : IcebergOrder) : ℚ :=
  let score : ℚ := 0
  let score :=
    if 0 < o.max_visible_size ∧ 3/10 < o.min_size_seen / o.max_visible_size then
      score + 3/10
    else score
  let score :=
    if 2 ≤ o.refill_count then score + min (4/10) ((o.refill_count : ℚ) * (1/10))
    else score
  let execution_ratio := o.get_execution_ratio
  let score :=
    if 3/2 < execution_ratio then score + min (3/10) (execution_ratio * (1/10))
    else score
  min score 1

/-- Order-level event: a replace (`add_replace_event`) or a direct execution
(`add_execution`), with its timestamp. -/
inductive OrderEvent where
  | replace (new_size timestamp : ℚ) (new_price : Option ℚ)
  | exec (filled_size timestamp : ℚ)
  deriving Repr, DecidableEq

/-- Apply one order-level event. -/
def IcebergOrder.applyEvent (o : IcebergOrder) : OrderEvent → IcebergOrder
  | .replace ns ts np => o.add_replace_event ns ts np
  | .exec f ts => o.add_execution f ts

/-- Apply a sequence of order-level events left to right. -/
def IcebergOrder.applyEvents (o : IcebergOrder) (es : List OrderEvent) : IcebergOrder :=
  es.foldl IcebergOrder.applyEvent o

end MBO

namespace Icev3

/-- One entry of `replace_events` in icev3.py (`'new_p'` keeps the raw
optional argument). -/
structure ReplaceRecord where
  ts : ℚ
  old_s : ℚ
  new_s : ℚ
  old_p : ℚ
  new_p : Option ℚ
  deriving Repr, DecidableEq

/-- `class IcebergOrder` of icev3.py: like the v2 order but with the fill
volume split into aggressor/passive parts and no `consecutive_refills` or
execution-event log. -/
structure IcebergOrder where
  order_id : Nat
  trader_id : Option Nat
  initial_size : ℚ
  current_size : ℚ
  max_visible_size : ℚ
  is_bid : Bool
  timestamp : ℚ
  last_update : ℚ
  last_reported_filled : ℚ
  price_history : List ℚ
  current_price : ℚ
  price_changes : Nat
  total_filled : ℚ
  active_filled : ℚ
  passive_filled : ℚ
  refill_count : Nat
  size_decrease_count : Nat
  replace_events : List ReplaceRecord
  is_confirmed_iceberg : Bool
  iceberg_start_time : Option ℚ
  completion_time : Option ℚ
  min_size_seen : ℚ
  execution_percentage : ℚ
  deriving Repr, DecidableEq

/-- `IcebergOrder.__init__` of icev3.py. -/
def IcebergOrder.init (order_id : Nat) (price initial_size : ℚ) (is_bid : Bool)
    (timestamp : ℚ) (trader_id : Option Nat) : IcebergOrder where
  order_id := order_id
  trader_id := trader_id
  initial_size := initial_size
  current_size := initial_size
  max_visible_size := initial_size
  is_bid := is_bid
  timestamp := timestamp
  last_update := timestamp
  last_reported_filled := 0
  price_history := [price]
  current_price := price
  price_changes := 0
  total_filled := 0
  active_filled := 0
  passive_filled := 0
  refill_count := 0
  size_decrease_count := 0
  replace_events := []
  is_confirmed_iceberg := false
  iceberg_start_time := none
  completion_time := none
  min_size_seen := initial_size
  execution_percentage := 0

/-- Price-change block of icev3.py's `add_replace_event` (same logic as the
v2 variant). -/
def IcebergOrder.trackPriceChange (o : IcebergOrder) (new_price : Option ℚ) : IcebergOrder :=
  match new_price with
  | some np =>
    if np ≠ o.current_price then
      { o with
        current_price := np,
        price_history :=
          if np ∈ o.price_history then o.price_history else o.price_history ++ [np],
        price_changes := o.price_changes + 1 }
    else o
  | none => o

/-- Replace-log block of icev3.py's `add_replace_event`. -/
def IcebergOrder.appendReplaceRecord (o : IcebergOrder)
    (old_size new_size old_price timestamp : ℚ) (new_price : Option ℚ) : IcebergOrder :=
  { o with replace_events := o.replace_events ++ [⟨timestamp, old_size, new_size, old_price, new_price⟩] }

/-- Size-decrease block of icev3.py's `add_replace_event`: only the counter
moves; unlike the v2 variant, no execution is inferred (the comment in the
source defers volume attribution to `handle_trades`). -/
def IcebergOrder.trackSizeDecrease (o : IcebergOrder) (size_change : ℚ) : IcebergOrder :=
  if size_change < 0 then { o with size_decrease_count := o.size_decrease_count + 1 }
  else o

/-- Bounds block of icev3.py's `add_replace_event`. -/
def IcebergOrder.trackBounds (o : IcebergOrder) (new_size : ℚ) : IcebergOrder :=
  let o4 : IcebergOrder :=
    if new_size < o.min_size_seen then { o with min_size_seen := new_size } else o
  if o4.max_visible_size < new_size then { o4 with max_visible_size := new_size } else o4

/-- Refill block of icev3.py's `add_replace_event` (no
`consecutive_refills` in this variant, hence no reset branch). -/
def IcebergOrder.trackRefill (o : IcebergOrder) (size_change old_size : ℚ) : IcebergOrder :=
  if 0 < size_change ∧ old_size < o.initial_size then
    { o with refill_count := o.refill_count + 1 }
  else o

/-- `IcebergOrder.add_replace_event` of icev3.py: the method's successive
mutation blocks (factored above, in the source's order) followed by the
final `current_size`/`last_update` assignment. -/
def IcebergOrder.add_replace_event (o : IcebergOrder) (new_size timestamp : ℚ)
    (new_price : Option ℚ) : IcebergOrder :=
  let old_size := o.current_size
  let old_price := o.current_price
  let size_change := new_size - old_size
  let o1 := o.trackPriceChange new_price
  let o2 := o1.appendReplaceRecord old_size new_size old_price timestamp new_price
  let o3 := o2.trackSizeDecrease size_change
  let o4 := o3.trackBounds new_size
  let o5 := o4.trackRefill size_change old_size
  { o5 with current_size := new_size, last_update := timestamp }

/-- `IcebergOrder.add_execution` of icev3.py: the fill is attributed to the
aggressor or passive bucket and added to `total_filled`. -/
def IcebergOrder.add_execution (o : IcebergOrder) (filled_size timestamp : ℚ)
    (is_active : Bool) : IcebergOrder :=
  let o1 : IcebergOrder :=
    if is_active then { o with active_filled := o.active_filled + filled_size }
    else { o with passive_filled := o.passive_filled + filled_size }
  let o2 : IcebergOrder :=
    { o1 with total_filled := o1.total_filled + filled_size, last_update := timestamp }
  let est_total := max (o2.total_filled + o2.current_size) o2.max_visible_size
  if 0 < est_total then { o2 with execution_percentage := o2.total_filled / est_total }
  else o2

/-- `IcebergOrder.get_execution_ratio` of icev3.py. -/
def IcebergOrder.get_execution_ratio (o : IcebergOrder) : ℚ :=
  if 0 < o.max_visible_size then o.total_filled / o.max_visible_size else 0

/-- `IcebergOrder.get_iceberg_score` of icev3.py (same formula as the v2
variant). -/
def IcebergOrder.get_iceberg_score (o : IcebergOrder) : ℚ :=
  let score : ℚ := 0
  let score :=
    if 0 < o.max_visible_size ∧ 3/10 < o.min_size_seen / o.max_visible_size then
      score + 3/10
    else score
  let score :=
    if 2 ≤ o.refill_count then score + min (4/10) ((o.refill_count : ℚ) * (1/10))
    else score
  let exec_ratio := o.get_execution_ratio
  let score :=
    if 3/2 < exec_ratio then score + min (3/10) (exec_ratio * (1/10))
    else score
  min score 1

end Icev3

namespace MBO

/-- Append to a bounded window (`collections.deque(maxlen=cap)`): the newest
element goes on the right and the oldest elements are evicted from the left
once the capacity is exceeded. -/
def pushWindow {α : Type} (cap : Nat) (xs : List α) (x : α) : List α :=
  let ys := xs ++ [x]
  if cap < ys.length then ys.drop (ys.length - cap) else ys

/-- `class MarketMetrics` of icetomultipletopicsv2slowed.py: bounded windows
plus time-gated cached aggregates (the Python `_avg_order_size` etc. become
`*_cached` fields). -/
structure MarketMetrics where
  window_size : Nat
  order_sizes : List ℚ
  trade_sizes : List ℚ
  volume_history : List ℚ
  timestamp_history : List ℚ
  avg_order_size_cached : ℚ
  avg_trade_size_cached : ℚ
  volume_rate_cached : ℚ
  last_update_time : ℚ
  update_interval : ℚ
  deriving Repr, DecidableEq

/-- `MarketMetrics.__init__` (the program always uses the default
`window_size=100`). -/
def MarketMetrics.init : MarketMetrics where
  window_size := 100
  order_sizes := []
  trade_sizes := []
  volume_history := []
  timestamp_history := []
  avg_order_size_cached := 0
  avg_trade_size_cached := 0
  volume_rate_cached := 0
  last_update_time := 0
  update_interval := 5

/-- `MarketMetrics._update_metrics`: recompute the cached aggregates, with
fixed fallbacks when a window is empty (50 / 30 / 100). -/
def MarketMetrics.update_metrics (m : MarketMetrics) : MarketMetrics :=
  let m1 : MarketMetrics :=
    if m.order_sizes ≠ [] then
      { m with avg_order_size_cached := m.order_sizes.sum / (m.order_sizes.length : ℚ) }
    else { m with avg_order_size_cached := 50 }
  let m2 : MarketMetrics :=
    if m1.trade_sizes ≠ [] then
      { m1 with avg_trade_size_cached := m1.trade_sizes.sum / (m1.trade_sizes.length : ℚ) }
    else { m1 with avg_trade_size_cached := 30 }
  if 2 ≤ m2.volume_history.length then
    let recent_volume := (m2.volume_history.drop (m2.volume_history.length - 10)).sum
    { m2 with volume_rate_cached := recent_volume / ((min 10 m2.volume_history.length : Nat) : ℚ) }
  else { m2 with volume_rate_cached := 100 }

/-- `MarketMetrics._maybe_update_metrics`: lazy, time-gated recompute. -/
def MarketMetrics.maybe_update_metrics (m : MarketMetrics) (now : ℚ) : MarketMetrics :=
  if m.update_interval ≤ now - m.last_update_time then
    { m.update_metrics with last_update_time := now }
  else m

/-- `MarketMetrics.add_order`. -/
def MarketMetrics.add_order (m : MarketMetrics) (size now : ℚ) : MarketMetrics :=
  let m : MarketMetrics :=
    { m with
      order_sizes := pushWindow m.window_size m.order_sizes size,
      timestamp_history := pushWindow m.window_size m.timestamp_history now }
  m.maybe_update_metrics now

/-- `MarketMetrics.add_trade`. -/
def MarketMetrics.add_trade (m : MarketMetrics) (size now : ℚ) : MarketMetrics :=
  let m : MarketMetrics := { m with trade_sizes := pushWindow m.window_size m.trade_sizes size }
  m.maybe_update_metrics now

/-- `MarketMetrics.add_volume_sample` (deque maxlen 50). -/
def MarketMetrics.add_volume_sample (m : MarketMetrics) (volume : ℚ) : MarketMetrics :=
  { m with volume_history := pushWindow 50 m.volume_history volume }

/-- `MarketMetrics.get_avg_order_size` (floored at 10). -/
def MarketMetrics.get_avg_order_size (m : MarketMetrics) : ℚ :=
  max m.avg_order_size_cached 10

/-- `MarketMetrics.get_avg_trade_size` (floored at 5). -/
def MarketMetrics.get_avg_trade_size (m : MarketMetrics) : ℚ :=
  max m.avg_trade_size_cached 5

/-- `MarketMetrics.get_volume_rate` (floored at 50). -/
def MarketMetrics.get_volume_rate (m : MarketMetrics) : ℚ :=
  max m.volume_rate_cached 50

/-- `MarketMetrics.get_percentile_order_size`: 100 on an empty window, else
the sorted window's element at `int(percentile/100 * n)` clamped above by
`n-1`, floored at 20.  (Python `int()` truncates toward zero; for the
non-negative percentiles the program uses this is the floor, and `Int.toNat`
clamps the unused negative case.) -/
def MarketMetrics.get_percentile_order_size (m : MarketMetrics) (percentile : ℚ) : ℚ :=
  if m.order_sizes = [] then 100
  else
    let sorted_sizes := m.order_sizes.insertionSort (· ≤ ·)
    let index := (⌊percentile / 100 * (sorted_sizes.length : ℚ)⌋).toNat
    let index := min index (sorted_sizes.length - 1)
    max (sorted_sizes.getD index 0) 20

/-- Kind of lifecycle message the engine emits (detections / updates /
full-executions Telegram topics). -/
inductive NotifKind where
  | detection
  | progress
  | completion
  deriving Repr, DecidableEq

/-- One emitted lifecycle message, reduced to its kind and order id (text
formatting and transport are external I/O). -/
structure Notif where
  kind : NotifKind
  order_id : Nat
  deriving Repr, DecidableEq

/-- One entry of `recent_trades` (`trade_info` dict in `add_trade`). -/
structure Trade where
  timestamp : ℚ
  price : ℚ
  size : ℚ
  is_bid : Bool
  deriving Repr, DecidableEq

/-- Result of `get_dynamic_thresholds`. -/
structure Thresholds where
  trigger_size : ℚ
  max_visible_size : ℚ
  min_visible_size : ℚ
  volume_threshold : ℚ
  avg_order_size : ℚ
  deriving Repr, DecidableEq

/-- Association-list lookup (first binding wins), modelling Python dict
access. -/
def lookupA {α β : Type} [DecidableEq α] : List (α × β) → α → Option β
  | [], _ => none
  | (k, v) :: rest, a => if a = k then some v else lookupA rest a

/-- Association-list insert-or-overwrite, modelling `dict[k] = v`. -/
def setA {α β : Type} [DecidableEq α] : List (α × β) → α → β → List (α × β)
  | [], a, b => [(a, b)]
  | (k, v) :: rest, a, b => if a = k then (k, b) :: rest else (k, v) :: setA rest a b

/-- Association-list delete, modelling `del dict[k]` (keys are unique by
construction, so removing every binding is the same as removing the one). -/
def removeA {α β : Type} [DecidableEq α] (l : List (α × β)) (a : α) : List (α × β) :=
  l.filter (fun kv => kv.1 ≠ a)

/-- `self.orders_by_price[price].append(order_id)` on a `defaultdict(list)`. -/
def appendAt (m : List (ℚ × List Nat)) (p : ℚ) (oid : Nat) : List (ℚ × List Nat) :=
  match lookupA m p with
  | some l => setA m p (l ++ [oid])
  | none => setA m p [oid]

/-- The guarded price-level removal used by replace/cancel/cleanup: if the
price has an entry containing the id, remove the id (first occurrence, like
`list.remove`) and delete the entry if it became empty. -/
def removeOrderAt (m : List (ℚ × List Nat)) (p : ℚ) (oid : Nat) : List (ℚ × List Nat) :=
  match lookupA m p with
  | none => m
  | some l =>
    if oid ∈ l then
      let l' := l.erase oid
      if l' = [] then removeA m p else setA m p l'
    else m

/-- `class RealMBOIcebergDetector` of icetomultipletopicsv2slowed.py.
The alias string, Telegram bots and MT5 provider are external and dropped;
`debug_mode` only gates logging.  The dicts `potential_icebergs`,
`confirmed_icebergs` and `completed_icebergs` hold aliases of the order
objects in `active_orders`, so they are modelled as id lists. -/
structure Detector where
  size_multiplier : ℚ
  pips : ℚ
  market_metrics : MarketMetrics
  trigger_size_percentage : ℚ
  max_visible_percentage : ℚ
  min_visible_percentage : ℚ
  volume_threshold_percentage : ℚ
  alert_execution_ratio_threshold : ℚ
  alert_total_filled_threshold : ℚ
  time_window : ℚ
  execution_threshold : ℚ
  iceberg_score_threshold : ℚ
  active_orders : List (Nat × IcebergOrder)
  potential_icebergs : List Nat
  confirmed_icebergs : List Nat
  completed_icebergs : List Nat
  orders_by_price : List (ℚ × List Nat)
  recent_trades : List Trade
  book_bids : List (ℚ × ℚ)
  book_asks : List (ℚ × ℚ)
  best_bid : Option ℚ
  best_ask : Option ℚ
  total_icebergs_detected : Nat
  total_icebergs_completed : Nat
  recent_volume : ℚ
  volume_sample_interval : ℚ
  last_volume_sample : ℚ
  notifications : List Notif
  deriving Repr, DecidableEq

/-- `RealMBOIcebergDetector.__init__` (`now` is the construction-time
`time.time()` stored in `last_volume_sample`). -/
def Detector.init (size_multiplier pips now : ℚ) : Detector where
  size_multiplier := size_multiplier
  pips := pips
  market_metrics := MarketMetrics.init
  trigger_size_percentage := 10
  max_visible_percentage := 150
  min_visible_percentage := 10
  volume_threshold_percentage := 30
  alert_execution_ratio_threshold := 5
  alert_total_filled_threshold := 80
  time_window := 6000
  execution_threshold := 7/10
  iceberg_score_threshold := 3/5
  active_orders := []
  potential_icebergs := []
  confirmed_icebergs := []
  completed_icebergs := []
  orders_by_price := []
  recent_trades := []
  book_bids := []
  book_asks := []
  best_bid := none
  best_ask := none
  total_icebergs_detected := 0
  total_icebergs_completed := 0
  recent_volume := 0
  volume_sample_interval := 60
  last_volume_sample := now
  notifications := []

/-- `self.active_orders[order_id]` read. -/
def Detector.lookupOrder (d : Detector) (oid : Nat) : Option IcebergOrder :=
  lookupA d.active_orders oid

/-- Visibility of a mutation of the order object keyed `oid` (Python mutates
the shared object; here the authoritative binding in `active_orders` is
rewritten). -/
def Detector.setOrder (d : Detector) (oid : Nat) (o : IcebergOrder) : Detector :=
  { d with active_orders := setA d.active_orders oid o }

/-- Emit one lifecycle message (`_send_iceberg_*` reduced to its observable
effect). -/
def Detector.push (d : Detector) (k : NotifKind) (oid : Nat) : Detector :=
  { d with notifications := d.notifications ++ [⟨k, oid⟩] }

/-- `RealMBOIcebergDetector.get_dynamic_thresholds`. -/
def Detector.get_dynamic_thresholds (d : Detector) : Thresholds :=
  let avg_order_size := d.market_metrics.get_avg_order_size
  let volume_rate := d.market_metrics.get_volume_rate
  let percentile_size := d.market_metrics.get_percentile_order_size 75
  let trigger_size :=
    max (avg_order_size * (d.trigger_size_percentage / 100)) (percentile_size * (1/2))
  let max_visible_size := avg_order_size * (d.max_visible_percentage / 100)
  let min_visible_size := avg_order_size * (d.min_visible_percentage / 100)
  let volume_threshold := volume_rate * (d.volume_threshold_percentage / 100)
  { trigger_size := max (min trigger_size 500) 20
    max_visible_size := max (min max_visible_size 1000) 50
    min_visible_size := max (min min_visible_size 100) 10
    volume_threshold := volume_threshold
    avg_order_size := avg_order_size }

/-- `RealMBOIcebergDetector.update_depth`. -/
def Detector.update_depth (d : Detector) (is_bid : Bool) (price size : ℚ) : Detector :=
  let d : Detector :=
    if is_bid then
      if 0 < size then { d with book_bids := setA d.book_bids price size }
      else if (lookupA d.book_bids price).isSome then { d with book_bids := removeA d.book_bids price }
      else d
    else
      if 0 < size then { d with book_asks := setA d.book_asks price size }
      else if (lookupA d.book_asks price).isSome then { d with book_asks := removeA d.book_asks price }
      else d
  let d : Detector :=
    if d.book_bids ≠ [] then { d with best_bid := (d.book_bids.map Prod.fst).max? } else d
  if d.book_asks ≠ [] then { d with best_ask := (d.book_asks.map Prod.fst).min? } else d

/-- `RealMBOIcebergDetector._get_distance_from_best` (Python truthiness: a
best price of 0 counts as unset). -/
def Detector.get_distance_from_best (d : Detector) (price : ℚ) (is_bid : Bool) : ℚ :=
  if 0 < d.pips then
    if is_bid then
      match d.best_bid with
      | some bb => if bb ≠ 0 then abs (price - bb) / d.pips else 0
      | none => 0
    else
      match d.best_ask with
      | some ba => if ba ≠ 0 then abs (price - ba) / d.pips else 0
      | none => 0
  else 0

/-- `RealMBOIcebergDetector.process_new_order`: normalize, feed the metrics,
admit into tracking when the size clears `min_visible_size`, and flag as a
potential iceberg when the size is inside the trigger/max window and close
enough to the best opposite price. -/
def Detector.process_new_order (d : Detector) (order_id : Nat) (is_bid : Bool)
    (price size : ℚ) (trader_id : Option Nat) (now : ℚ) : Detector :=
  let actual_size := if 0 < d.size_multiplier then size / d.size_multiplier else size
  let d : Detector := { d with market_metrics := d.market_metrics.add_order actual_size now }
  let thresholds := d.get_dynamic_thresholds
  if thresholds.min_visible_size ≤ actual_size then
    let iceberg_order := IcebergOrder.init order_id price actual_size is_bid now trader_id
    let d := d.setOrder order_id iceberg_order
    let d : Detector := { d with orders_by_price := appendAt d.orders_by_price price order_id }
    let distance_pips := d.get_distance_from_best price is_bid
    if thresholds.trigger_size ≤ actual_size ∧ actual_size ≤ thresholds.max_visible_size ∧
        distance_pips ≤ 50 then
      { d with potential_icebergs :=
          if order_id ∈ d.potential_icebergs then d.potential_icebergs
          else d.potential_icebergs ++ [order_id] }
    else d
  else d

/-- `RealMBOIcebergDetector._confirm_iceberg`: set the flag, stamp the start
time, reset the throttling baseline, register the id and emit the detection
message.  Returns the detector together with the mutated order object. -/
def Detector.confirm_iceberg (d : Detector) (order : IcebergOrder) (now : ℚ) :
    Detector × IcebergOrder :=
  let o : IcebergOrder :=
    { order with
      is_confirmed_iceberg := true,
      iceberg_start_time := some now,
      last_reported_filled := order.total_filled }
  let d := d.setOrder o.order_id o
  let d : Detector :=
    { d with
      confirmed_icebergs :=
        if o.order_id ∈ d.confirmed_icebergs then d.confirmed_icebergs
        else d.confirmed_icebergs ++ [o.order_id],
      total_icebergs_detected := d.total_icebergs_detected + 1 }
  (d.push .detection o.order_id, o)

/-- One confirmation pattern of `_analyze_iceberg_pattern_percentage`:
confirm when the pattern's condition — which always includes "not yet
confirmed" — holds of the live order object.  The Python method mutates the
shared order object between patterns, so the (detector, order) pair is
threaded. -/
def Detector.confirmStep (now : ℚ) (cond : IcebergOrder → Bool)
    (s : Detector × IcebergOrder) : Detector × IcebergOrder :=
  if cond s.2 then s.1.confirm_iceberg s.2 now else s

/-- The five confirmation patterns applied in source order, each reading the
live (detector, order) pair left by the previous one. -/
def confirmChain (now : ℚ) (conds : List (IcebergOrder → Bool))
    (s : Detector × IcebergOrder) : Detector × IcebergOrder :=
  conds.foldl (fun s c => Detector.confirmStep now c s) s

/-- `RealMBOIcebergDetector._analyze_iceberg_pattern_percentage`: the alert
admission gate followed by the five confirmation patterns in source order.
`iceberg_score` and `execution_ratio` are computed once up front, and the
alert thresholds are plain attributes never written after `__init__`, so
capturing them from the entry state matches the source's `self.` reads.
(The `old_size`/`new_size` parameters of the Python method are unused and
dropped; `get_dynamic_thresholds` is called but its result is unused.) -/
def Detector.analyze_iceberg_pattern_percentage (d : Detector) (order : IcebergOrder)
    (now : ℚ) : Detector :=
  let _thresholds := d.get_dynamic_thresholds
  let iceberg_score := order.get_iceberg_score
  let execution_ratio := order.get_execution_ratio
  let should_alert :=
    d.alert_execution_ratio_threshold ≤ execution_ratio ∨
    d.alert_total_filled_threshold ≤ order.total_filled
  if ¬ should_alert then d
  else
    (confirmChain now
      [fun o => decide (1 ≤ o.refill_count ∧ o.is_confirmed_iceberg = false ∧
         2/5 ≤ iceberg_score),
       fun o => decide (d.alert_execution_ratio_threshold ≤ execution_ratio ∧
         o.min_size_seen * (4/5) ≤ o.current_size ∧ o.is_confirmed_iceberg = false),
       fun o => decide (d.alert_total_filled_threshold ≤ o.total_filled ∧
         2 ≤ o.size_decrease_count ∧ o.is_confirmed_iceberg = false),
       fun o => decide (d.alert_total_filled_threshold ≤ o.total_filled ∧
         3 ≤ o.size_decrease_count ∧ o.is_confirmed_iceberg = false),
       fun o => decide (d.alert_execution_ratio_threshold ≤ execution_ratio ∧
         o.initial_size * (3/5) ≤ o.current_size ∧ o.is_confirmed_iceberg = false)]
      (d, order)).1

/-- `RealMBOIcebergDetector._handle_iceberg_near_completion`: throttled
progress message — only when the order is confirmed, sufficiently executed,
and at least 20 units were filled since the last report; then the baseline is
reset. -/
def Detector.handle_iceberg_near_completion (d : Detector) (order : IcebergOrder) : Detector :=
  if order.is_confirmed_iceberg = true ∧ d.execution_threshold ≤ order.execution_percentage then
    if 20 ≤ order.total_filled - order.last_reported_filled then
      let d := d.push .progress order.order_id
      d.setOrder order.order_id { order with last_reported_filled := order.total_filled }
    else d
  else d

/-- `RealMBOIcebergDetector.process_order_execution`: unknown ids are
ignored; otherwise record the fill and, for a confirmed order passing the
alert gate and the execution threshold, run the near-completion handler. -/
def Detector.process_order_execution (d : Detector) (order_id : Nat)
    (executed_size now : ℚ) : Detector :=
  match d.lookupOrder order_id with
  | none => d
  | some order =>
    let order := order.add_execution executed_size now
    let d := d.setOrder order_id order
    if order.is_confirmed_iceberg = true ∧
        (d.alert_execution_ratio_threshold ≤ order.get_execution_ratio ∨
         d.alert_total_filled_threshold ≤ order.total_filled) then
      if d.execution_threshold ≤ order.execution_percentage then
        d.handle_iceberg_near_completion order
      else d
    else d

/-- `RealMBOIcebergDetector.process_replace_order`: unknown ids are ignored;
on a price change the price index entry moves; the order is updated via
`add_replace_event` and the confirmation rules run. -/
def Detector.process_replace_order (d : Detector) (order_id : Nat)
    (price size now : ℚ) : Detector :=
  match d.lookupOrder order_id with
  | none => d
  | some order =>
    let actual_size := if 0 < d.size_multiplier then size / d.size_multiplier else size
    let old_price := order.current_price
    let price_changed := price ≠ old_price
    let d : Detector :=
      if price_changed then
        let d : Detector :=
          { d with orders_by_price := removeOrderAt d.orders_by_price old_price order_id }
        { d with orders_by_price := appendAt d.orders_by_price price order_id }
      else d
    let order := order.add_replace_event actual_size now (if price_changed then some price else none)
    let d := d.setOrder order_id order
    d.analyze_iceberg_pattern_percentage order now

/-- `RealMBOIcebergDetector._cleanup_order`. -/
def Detector.cleanup_order (d : Detector) (order_id : Nat) : Detector :=
  let d : Detector :=
    match d.lookupOrder order_id with
    | some order =>
      let d := order.price_history.foldl
        (fun d p => { d with orders_by_price := removeOrderAt d.orders_by_price p order_id }) d
      { d with active_orders := removeA d.active_orders order_id }
    | none => d
  { d with
    potential_icebergs := d.potential_icebergs.erase order_id,
    confirmed_icebergs := d.confirmed_icebergs.erase order_id }

/-- `RealMBOIcebergDetector.process_cancel_order`: unknown ids are ignored;
remove from every visited price level; a confirmed iceberg is completed (with
a completion message) before cleanup. -/
def Detector.process_cancel_order (d : Detector) (order_id : Nat) (now : ℚ) : Detector :=
  match d.lookupOrder order_id with
  | none => d
  | some order =>
    let d := order.price_history.foldl
      (fun d p => { d with orders_by_price := removeOrderAt d.orders_by_price p order_id }) d
    let d : Detector :=
      if order.is_confirmed_iceberg = true then
        let o : IcebergOrder := { order with completion_time := some now }
        let d := d.setOrder order_id o
        let d : Detector :=
          { d with completed_icebergs :=
              if order_id ∈ d.completed_icebergs then d.completed_icebergs
              else d.completed_icebergs ++ [order_id] }
        let d := d.push .completion order_id
        { d with total_icebergs_completed := d.total_icebergs_completed + 1 }
      else d
    d.cleanup_order order_id

/-- `RealMBOIcebergDetector.cleanup_old_orders`: expire every active order
idle longer than `time_window`, silently. -/
def Detector.cleanup_old_orders (d : Detector) (now : ℚ) : Detector :=
  let expired_orders :=
    (d.active_orders.filter (fun kv => d.time_window < now - kv.2.last_update)).map Prod.fst
  expired_orders.foldl (fun d oid => d.cleanup_order oid) d

/-- `RealMBOIcebergDetector._match_trade_to_orders_v2`: the even-split
heuristic — all tracked opposite-side orders at the trade price share the
trade size equally, each allocation clamped by the order's `current_size`. -/
def Detector.match_trade_to_orders_v2 (d : Detector) (trade : Trade) : Detector :=
  match lookupA d.orders_by_price trade.price with
  | none => d
  | some ids =>
    let potential_orders := ids.filterMap (fun oid =>
      match d.lookupOrder oid with
      | some order => if order.is_bid ≠ trade.is_bid then some order else none
      | none => none)
    if potential_orders = [] then d
    else
      let execution_per_order := trade.size / (potential_orders.length : ℚ)
      potential_orders.foldl (fun d order =>
        let actual_execution := min execution_per_order order.current_size
        if 0 < actual_execution then
          d.process_order_execution order.order_id actual_execution trade.timestamp
        else d) d

/-- `RealMBOIcebergDetector.add_trade`: record the trade, feed the metrics,
accumulate the volume sample, then run the matching heuristic. -/
def Detector.add_trade (d : Detector) (price size : ℚ) (is_bid : Bool) (now : ℚ) : Detector :=
  let trade_info : Trade := ⟨now, price, size, is_bid⟩
  let d : Detector := { d with recent_trades := pushWindow 200 d.recent_trades trade_info }
  let d : Detector := { d with market_metrics := d.market_metrics.add_trade size now }
  let d : Detector := { d with recent_volume := d.recent_volume + size }
  let d : Detector :=
    if d.volume_sample_interval ≤ now - d.last_volume_sample then
      { d with
        market_metrics := d.market_metrics.add_volume_sample d.recent_volume,
        recent_volume := 0,
        last_volume_sample := now }
    else d
  d.match_trade_to_orders_v2 trade_info

/-- Module-level `handle_trades` of icetomultipletopicsv2slowed.py for one
detector: normalize, run `add_trade` (which includes the even-split
heuristic), then apply the full normalized size directly to the passive and
aggressor order ids when they are tracked (Python truthiness: an id of 0 is
falsy). -/
def Detector.handle_trades (d : Detector) (price size : ℚ) (is_bid : Bool)
    (aggressor_order_id passive_order_id : Option Nat) (now : ℚ) : Detector :=
  let actual_size := if 0 < d.size_multiplier then size / d.size_multiplier else size
  let d := d.add_trade price actual_size is_bid now
  let d : Detector :=
    match passive_order_id with
    | some pid =>
      if pid ≠ 0 ∧ (d.lookupOrder pid).isSome then d.process_order_execution pid actual_size now
      else d
    | none => d
  match aggressor_order_id with
  | some aid =>
    if aid ≠ 0 ∧ (d.lookupOrder aid).isSome then d.process_order_execution aid actual_size now
    else d
  | none => d

/-- MBO event kinds dispatched by module-level `handle_mbo_event`. -/
inductive MboEventType where
  | ask_new
  | bid_new
  | replace
  | cancel
  deriving Repr, DecidableEq

/-- Module-level `handle_mbo_event` of icetomultipletopicsv2slowed.py for one
detector (the bookmap-book bookkeeping is external). -/
def Detector.handle_mbo_event (d : Detector) (event_type : MboEventType) (order_id : Nat)
    (price size : ℚ) (trader_id : Option Nat) (now : ℚ) : Detector :=
  match event_type with
  | .ask_new => d.process_new_order order_id false price size trader_id now
  | .bid_new => d.process_new_order order_id true price size trader_id now
  | .replace => d.process_replace_order order_id price size now
  | .cancel => d.process_cancel_order order_id now

/-- One event delivered to the engine by the feed adapter. -/
inductive Event where
  | mbo (event_type : MboEventType) (order_id : Nat) (price size : ℚ) (trader_id : Option Nat)
  | trade (price size : ℚ) (is_bid : Bool) (aggressor_order_id passive_order_id : Option Nat)
  | depth (is_bid : Bool) (price size : ℚ)
  | interval
  deriving Repr, DecidableEq

/-- Dispatch one event (`handle_mbo_event` / `handle_trades` /
`handle_depth_info` / `on_interval`). -/
def Detector.step (d : Detector) (e : Event) (now : ℚ) : Detector :=
  match e with
  | .mbo et oid p s tid => d.handle_mbo_event et oid p s tid now
  | .trade p s b aid pid => d.handle_trades p s b aid pid now
  | .depth b p s => d.update_depth b p s
  | .interval => d.cleanup_old_orders now

/-- Run a timestamped event sequence through the engine. -/
def Detector.run (d : Detector) : List (Event × ℚ) → Detector
  | [] => d
  | (e, ts) :: rest => (d.step e ts).run rest

end MBO

namespace MBO

/-- The `current_size` an order would show after a list of order-level
events if only replace events set it (the value of the last replace's
`new_size`, or the starting size when no replace occurs). -/
def netReplaceCurrentSize (cs : ℚ) : List OrderEvent → ℚ
  | [] => cs
  | .replace ns _ _ :: rest => netReplaceCurrentSize ns rest
  | .exec _ _ :: rest => netReplaceCurrentSize cs rest

/-- Every replace event in the list carries a non-negative size. -/
def replaceSizesNonneg (es : List OrderEvent) : Prop :=
  ∀ e ∈ es, ∀ ns ts np, e = OrderEvent.replace ns ts np → 0 ≤ ns

/-- The iceberg score as claim C6 words it: the refill component is `0.1`
per refill capped at `0.4` starting from the first refill (the code instead
requires `refill_count ≥ 2` before the component applies). -/
def claimIcebergScore (o : IcebergOrder) : ℚ :=
  min ((if 0 < o.max_visible_size ∧ 3/10 < o.min_size_seen / o.max_visible_size then (3/10 : ℚ) else 0)
      + min (4/10) ((o.refill_count : ℚ) * (1/10))
      + (if 3/2 < o.get_execution_ratio then min (3/10) (o.get_execution_ratio * (1/10)) else 0)) 1

/-- The amended scoring formula: as the claim, except the refill component
applies only once `refill_count ≥ 2`. -/
def amendedIcebergScore (o : IcebergOrder) : ℚ :=
  min ((if 0 < o.max_visible_size ∧ 3/10 < o.min_size_seen / o.max_visible_size then (3/10 : ℚ) else 0)
      + (if 2 ≤ o.refill_count then min (4/10) ((o.refill_count : ℚ) * (1/10)) else 0)
      + (if 3/2 < o.get_execution_ratio then min (3/10) (o.get_execution_ratio * (1/10)) else 0)) 1

/-- The percentile selection as claim C7 words it: the element of the sorted
snapshot at index `floor(p/100 * n)` clamped to `[0, n-1]` — without the
floor at 20 the code applies. -/
def claimPercentileSelect (m : MarketMetrics) (percentile : ℚ) : ℚ :=
  let sorted_sizes := m.order_sizes.insertionSort (· ≤ ·)
  sorted_sizes.getD
    (min ((⌊percentile / 100 * (sorted_sizes.length : ℚ)⌋).toNat) (sorted_sizes.length - 1)) 0

/-- Detection message aimed at order `i`. -/
def isDetectionFor (i : Nat) (n : Notif) : Bool :=
  decide (n.kind = NotifKind.detection ∧ n.order_id = i)

/-- Progress (execution-update) message aimed at order `i`. -/
def isProgressFor (i : Nat) (n : Notif) : Bool :=
  decide (n.kind = NotifKind.progress ∧ n.order_id = i)

/-- Number of detection messages for order `i` in a log. -/
def detCount (l : List Notif) (i : Nat) : Nat :=
  (l.filter (isDetectionFor i)).length

/-- Number of progress messages for order `i` in a log. -/
def progCount (l : List Notif) (i : Nat) : Nat :=
  (l.filter (isProgressFor i)).length

/-- Whether a log contains a detection message for order `i`. -/
def hasDetection (i : Nat) (l : List Notif) : Bool :=
  l.any (isDetectionFor i)

/-- Scans a log left to right; `seen` records whether a detection for `i`
was already passed; fails exactly when a progress message for `i` appears
with no earlier detection for `i`. -/
def progressOkFrom (i : Nat) : Bool → List Notif → Bool
  | _, [] => true
  | seen, n :: rest =>
    if isProgressFor i n && !seen then false
    else progressOkFrom i (seen || isDetectionFor i n) rest

/-- The `active_orders` dict always binds an id to an order carrying that id. -/
def Detector.KeyWF (d : Detector) : Prop :=
  ∀ k o, d.lookupOrder k = some o → o.order_id = k

/-- Confirmed-implies-announced plus progress-after-detection: the two facts
that make the progress-precedence trace property inductive. -/
def Detector.LifecycleInv (d : Detector) (i : Nat) : Prop :=
  (∀ o, d.lookupOrder i = some o → o.is_confirmed_iceberg = true →
    hasDetection i d.notifications = true) ∧
  progressOkFrom i false d.notifications = true

/-- At most one detection for `i` so far, and none while `i` is tracked but
not yet confirmed. -/
def Detector.DetectionBudget (d : Detector) (i : Nat) : Prop :=
  detCount d.notifications i ≤ 1 ∧
  (∀ o, d.lookupOrder i = some o → o.is_confirmed_iceberg = false →
    detCount d.notifications i = 0)

/-- Order `i` has never been tracked and never announced. -/
def Detector.NeverTracked (d : Detector) (i : Nat) : Prop :=
  d.lookupOrder i = none ∧ detCount d.notifications i = 0

/-- Flag monotonicity from one detector state to a later one: if order `i`
is confirmed in the first and still tracked in the second, it is still
confirmed. -/
def Detector.FlagMono (d d' : Detector) (i : Nat) : Prop :=
  ∀ o o', d.lookupOrder i = some o → o.is_confirmed_iceberg = true →
    d'.lookupOrder i = some o' → o'.is_confirmed_iceberg = true

/-- A state transition that emits no detection messages, emits a progress
message for `i` only while `i` is tracked and confirmed, and preserves the
confirmation flag of `i` whenever `i` survives (possibly dropping `i`).
Every engine operation except new-order admission and the replace-driven
confirmation rules is of this shape. -/
def Detector.TameStep (d d' : Detector) (i : Nat) : Prop :=
  (∃ newNotifs, d'.notifications = d.notifications ++ newNotifs ∧
    (∀ n ∈ newNotifs, n.kind ≠ NotifKind.detection) ∧
    (∀ n ∈ newNotifs, n.kind = NotifKind.progress → n.order_id = i →
      ∃ o, d.lookupOrder i = some o ∧ o.is_confirmed_iceberg = true)) ∧
  (∀ o', d'.lookupOrder i = some o' →
    ∃ o, d.lookupOrder i = some o ∧ o.is_confirmed_iceberg = o'.is_confirmed_iceberg)

/-- Tracking monotonicity from one detector state to a later one: a binding
for `i` in the later state descends from one in the earlier state, never
losing a confirmation along the way. -/
def Detector.TrackMono (d d' : Detector) (i : Nat) : Prop :=
  ∀ o', d'.lookupOrder i = some o' → ∃ o, d.lookupOrder i = some o ∧
    (o.is_confirmed_iceberg = true → o'.is_confirmed_iceberg = true)

/-- Event trace reusing order id 1: admit, run it to confirmation through two
shrinking replaces, admit id 1 again (the fresh order starts unconfirmed),
and run the fresh order to a second confirmation. -/
def c3BadEvents : List (Event × ℚ) :=
  [(Event.mbo .bid_new 1 100 100 none, 1),
   (Event.mbo .replace 1 100 20 none, 2),
   (Event.mbo .replace 1 100 5 none, 3),
   (Event.mbo .bid_new 1 100 100 none, 4),
   (Event.mbo .replace 1 100 20 none, 5),
   (Event.mbo .replace 1 100 5 none, 6)]

/-- Concrete confirmed order used to exercise the progress-throttling path
(fields as produced by confirmation after 100 units of fills). -/
def c4Order : IcebergOrder :=
  { IcebergOrder.init 1 100 50 true 0 none with
    is_confirmed_iceberg := true, total_filled := 100 }

/-- Concrete detector holding the confirmed order `c4Order`. -/
def c4Detector : Detector :=
  (Detector.init 1 (1/100) 0).setOrder 1 c4Order

/-- Concrete event sequence for the trace witnesses: one new order, a
replace, a trade and a cancel for the same id. -/
def c3Events : List (Event × ℚ) :=
  [(Event.mbo .bid_new 1 100 50 none, 1),
   (Event.mbo .replace 1 100 30 none, 2),
   (Event.trade 100 10 false none (some 1), 3),
   (Event.mbo .cancel 1 0 0 none, 4)]

/-- Whether an event is a new-order event for id `i`. -/
def Event.isNewOrderFor (e : Event) (i : Nat) : Bool :=
  match e with
  | .mbo .ask_new oid _ _ _ => oid == i
  | .mbo .bid_new oid _ _ _ => oid == i
  | _ => false

/-- How many new-order events for id `i` a timestamped event list contains. -/
def newOrderCount (evs : List (Event × ℚ)) (i : Nat) : Nat :=
  (evs.filter (fun p => p.1.isNewOrderFor i)).length

/-- Concrete scenario for C1: one tracked ask of size 50 resting at 100. -/
def c1Detector : Detector :=
  (Detector.init 1 (1/100) 0).process_new_order 1 false 100 50 none 1

/-- The C1 trade: size 10, buyer-initiated at 100, carrying passive id 1. -/
def c1After : Detector :=
  c1Detector.handle_trades 100 10 true none (some 1) 10

/-- Concrete order for C2: one direct execution of 5 against a fresh order of
size 10, no replace events. -/
def c2Order : IcebergOrder :=
  (IcebergOrder.init 1 100 10 true 0 none).add_execution 5 1

/-- Concrete order for C5: price moves 100 → 101 → back to 100. -/
def c5Order : IcebergOrder :=
  (IcebergOrder.init 1 100 10 true 0 none).applyEvents
    [.replace 10 1 (some 101), .replace 10 2 (some 100)]

/-- Concrete order for C6: size 10 → 2 → 10, giving exactly one refill with
`min/max = 0.2` and execution ratio `0.8`. -/
def c6Order : IcebergOrder :=
  (IcebergOrder.init 1 100 10 true 0 none).applyEvents
    [.replace 2 1 none, .replace 10 2 none]

/-- Concrete metrics for C7: an order-size window holding just `[5]`. -/
def c7Metrics : MarketMetrics :=
  MarketMetrics.init.add_order 5 10

/-- Concrete detector for C8: one tracked bid of size 50. -/
def c8Detector : Detector :=
  (Detector.init 1 (1/100) 0).process_new_order 1 true 100 50 none 1

/-- C8 negative-size execution applied to the tracked order. -/
def c8After : Detector :=
  c8Detector.process_order_execution 1 (-5) 2

/-- Concrete v2 order for C10. -/
def c10OrderV2 : IcebergOrder :=
  IcebergOrder.init 1 100 10 true 0 none

/-- Concrete v3 order for C10. -/
def c10OrderV3 : Icev3.IcebergOrder :=
  Icev3.IcebergOrder.init 1 100 10 true 0 none

end MBO

namespace MBO

theorem add_execution_eq (o : IcebergOrder) (f ts : ℚ) :
    o.add_execution f ts =
      { o with
        execution_events := o.execution_events ++ [⟨ts, f, o.current_size⟩],
        total_filled := o.total_filled + f,
        last_update := ts,
        execution_percentage :=
          if 0 < max (o.total_filled + f + o.current_size) o.max_visible_size then
            (o.total_filled + f) / max (o.total_filled + f + o.current_size) o.max_visible_size
          else o.execution_percentage } := by
  simp only [IcebergOrder.add_execution]
  split <;> rfl

@[simp] theorem add_execution_order_id (o : IcebergOrder) (f ts : ℚ) :
    (o.add_execution f ts).order_id = o.order_id := by rw [add_execution_eq]

@[simp] theorem add_execution_initial_size (o : IcebergOrder) (f ts : ℚ) :
    (o.add_execution f ts).initial_size = o.initial_size := by rw [add_execution_eq]

@[simp] theorem add_execution_current_size (o : IcebergOrder) (f ts : ℚ) :
    (o.add_execution f ts).current_size = o.current_size := by rw [add_execution_eq]

@[simp] theorem add_execution_max_visible_size (o : IcebergOrder) (f ts : ℚ) :
    (o.add_execution f ts).max_visible_size = o.max_visible_size := by rw [add_execution_eq]

@[simp] theorem add_execution_min_size_seen (o : IcebergOrder) (f ts : ℚ) :
    (o.add_execution f ts).min_size_seen = o.min_size_seen := by rw [add_execution_eq]

@[simp] theorem add_execution_is_bid (o : IcebergOrder) (f ts : ℚ) :
    (o.add_execution f ts).is_bid = o.is_bid := by rw [add_execution_eq]

@[simp] theorem add_execution_total_filled (o : IcebergOrder) (f ts : ℚ) :
    (o.add_execution f ts).total_filled = o.total_filled + f := by rw [add_execution_eq]

@[simp] theorem add_execution_last_update (o : IcebergOrder) (f ts : ℚ) :
    (o.add_execution f ts).last_update = ts := by rw [add_execution_eq]

@[simp] theorem add_execution_price_history (o : IcebergOrder) (f ts : ℚ) :
    (o.add_execution f ts).price_history = o.price_history := by rw [add_execution_eq]

@[simp] theorem add_execution_current_price (o : IcebergOrder) (f ts : ℚ) :
    (o.add_execution f ts).current_price = o.current_price := by rw [add_execution_eq]

@[simp] theorem add_execution_price_changes (o : IcebergOrder) (f ts : ℚ) :
    (o.add_execution f ts).price_changes = o.price_changes := by rw [add_execution_eq]

@[simp] theorem add_execution_refill_count (o : IcebergOrder) (f ts : ℚ) :
    (o.add_execution f ts).refill_count = o.refill_count := by rw [add_execution_eq]

@[simp] theorem add_execution_size_decrease_count (o : IcebergOrder) (f ts : ℚ) :
    (o.add_execution f ts).size_decrease_count = o.size_decrease_count := by rw [add_execution_eq]

@[simp] theorem add_execution_consecutive_refills (o : IcebergOrder) (f ts : ℚ) :
    (o.add_execution f ts).consecutive_refills = o.consecutive_refills := by rw [add_execution_eq]

@[simp] theorem add_execution_replace_events (o : IcebergOrder) (f ts : ℚ) :
    (o.add_execution f ts).replace_events = o.replace_events := by rw [add_execution_eq]

@[simp] theorem add_execution_execution_events (o : IcebergOrder) (f ts : ℚ) :
    (o.add_execution f ts).execution_events =
      o.execution_events ++ [⟨ts, f, o.current_size⟩] := by rw [add_execution_eq]

@[simp] theorem add_execution_is_confirmed (o : IcebergOrder) (f ts : ℚ) :
    (o.add_execution f ts).is_confirmed_iceberg = o.is_confirmed_iceberg := by
  rw [add_execution_eq]

@[simp] theorem add_execution_last_reported (o : IcebergOrder) (f ts : ℚ) :
    (o.add_execution f ts).last_reported_filled = o.last_reported_filled := by
  rw [add_execution_eq]

theorem add_execution_execution_percentage (o : IcebergOrder) (f ts : ℚ) :
    (o.add_execution f ts).execution_percentage =
      if 0 < max (o.total_filled + f + o.current_size) o.max_visible_size then
        (o.total_filled + f) / max (o.total_filled + f + o.current_size) o.max_visible_size
      else o.execution_percentage := by
  rw [add_execution_eq]

@[simp] theorem trackPriceChange_order_id (o : IcebergOrder) (np : Option ℚ) :
    (o.trackPriceChange np).order_id = o.order_id := by
  cases np with
  | none => rfl
  | some p => simp only [IcebergOrder.trackPriceChange]; split <;> rfl

@[simp] theorem trackPriceChange_initial_size (o : IcebergOrder) (np : Option ℚ) :
    (o.trackPriceChange np).initial_size = o.initial_size := by
  cases np with
  | none => rfl
  | some p => simp only [IcebergOrder.trackPriceChange]; split <;> rfl

@[simp] theorem trackPriceChange_current_size (o : IcebergOrder) (np : Option ℚ) :
    (o.trackPriceChange np).current_size = o.current_size := by
  cases np with
  | none => rfl
  | some p => simp only [IcebergOrder.trackPriceChange]; split <;> rfl

@[simp] theorem trackPriceChange_max_visible_size (o : IcebergOrder) (np : Option ℚ) :
    (o.trackPriceChange np).max_visible_size = o.max_visible_size := by
  cases np with
  | none => rfl
  | some p => simp only [IcebergOrder.trackPriceChange]; split <;> rfl

@[simp] theorem trackPriceChange_min_size_seen (o : IcebergOrder) (np : Option ℚ) :
    (o.trackPriceChange np).min_size_seen = o.min_size_seen := by
  cases np with
  | none => rfl
  | some p => simp only [IcebergOrder.trackPriceChange]; split <;> rfl

@[simp] theorem trackPriceChange_is_bid (o : IcebergOrder) (np : Option ℚ) :
    (o.trackPriceChange np).is_bid = o.is_bid := by
  cases np with
  | none => rfl
  | some p => simp only [IcebergOrder.trackPriceChange]; split <;> rfl

@[simp] theorem trackPriceChange_total_filled (o : IcebergOrder) (np : Option ℚ) :
    (o.trackPriceChange np).total_filled = o.total_filled := by
  cases np with
  | none => rfl
  | some p => simp only [IcebergOrder.trackPriceChange]; split <;> rfl

@[simp] theorem trackPriceChange_execution_percentage (o : IcebergOrder) (np : Option ℚ) :
    (o.trackPriceChange np).execution_percentage = o.execution_percentage := by
  cases np with
  | none => rfl
  | some p => simp only [IcebergOrder.trackPriceChange]; split <;> rfl

@[simp] theorem trackPriceChange_refill_count (o : IcebergOrder) (np : Option ℚ) :
    (o.trackPriceChange np).refill_count = o.refill_count := by
  cases np with
  | none => rfl
  | some p => simp only [IcebergOrder.trackPriceChange]; split <;> rfl

@[simp] theorem trackPriceChange_size_decrease_count (o : IcebergOrder) (np : Option ℚ) :
    (o.trackPriceChange np).size_decrease_count = o.size_decrease_count := by
  cases np with
  | none => rfl
  | some p => simp only [IcebergOrder.trackPriceChange]; split <;> rfl

@[simp] theorem trackPriceChange_consecutive_refills (o : IcebergOrder) (np : Option ℚ) :
    (o.trackPriceChange np).consecutive_refills = o.consecutive_refills := by
  cases np with
  | none => rfl
  | some p => simp only [IcebergOrder.trackPriceChange]; split <;> rfl

@[simp] theorem trackPriceChange_replace_events (o : IcebergOrder) (np : Option ℚ) :
    (o.trackPriceChange np).replace_events = o.replace_events := by
  cases np with
  | none => rfl
  | some p => simp only [IcebergOrder.trackPriceChange]; split <;> rfl

@[simp] theorem trackPriceChange_execution_events (o : IcebergOrder) (np : Option ℚ) :
    (o.trackPriceChange np).execution_events = o.execution_events := by
  cases np with
  | none => rfl
  | some p => simp only [IcebergOrder.trackPriceChange]; split <;> rfl

@[simp] theorem trackPriceChange_is_confirmed (o : IcebergOrder) (np : Option ℚ) :
    (o.trackPriceChange np).is_confirmed_iceberg = o.is_confirmed_iceberg := by
  cases np with
  | none => rfl
  | some p => simp only [IcebergOrder.trackPriceChange]; split <;> rfl

@[simp] theorem trackPriceChange_last_reported (o : IcebergOrder) (np : Option ℚ) :
    (o.trackPriceChange np).last_reported_filled = o.last_reported_filled := by
  cases np with
  | none => rfl
  | some p => simp only [IcebergOrder.trackPriceChange]; split <;> rfl

theorem trackPriceChange_price_fields (o : IcebergOrder) (np : Option ℚ) :
    ((o.trackPriceChange np).current_price, (o.trackPriceChange np).price_history) =
      match np with
      | some p =>
        if p ≠ o.current_price then
          (p, if p ∈ o.price_history then o.price_history else o.price_history ++ [p])
        else (o.current_price, o.price_history)
      | none => (o.current_price, o.price_history) := by
  cases np with
  | none => rfl
  | some p =>
    simp only [IcebergOrder.trackPriceChange]
    split_ifs <;> simp_all

end MBO

namespace MBO

@[simp] theorem appendReplaceRecord_order_id (o : IcebergOrder) (os ns sc op ts : ℚ)
    (np : Option ℚ) : (o.appendReplaceRecord os ns sc op ts np).order_id = o.order_id := rfl

@[simp] theorem appendReplaceRecord_initial_size (o : IcebergOrder) (os ns sc op ts : ℚ)
    (np : Option ℚ) : (o.appendReplaceRecord os ns sc op ts np).initial_size = o.initial_size := rfl

@[simp] theorem appendReplaceRecord_current_size (o : IcebergOrder) (os ns sc op ts : ℚ)
    (np : Option ℚ) : (o.appendReplaceRecord os ns sc op ts np).current_size = o.current_size := rfl

@[simp] theorem appendReplaceRecord_max_visible_size (o : IcebergOrder) (os ns sc op ts : ℚ)
    (np : Option ℚ) :
    (o.appendReplaceRecord os ns sc op ts np).max_visible_size = o.max_visible_size := rfl

@[simp] theorem appendReplaceRecord_min_size_seen (o : IcebergOrder) (os ns sc op ts : ℚ)
    (np : Option ℚ) : (o.appendReplaceRecord os ns sc op ts np).min_size_seen = o.min_size_seen := rfl

@[simp] theorem appendReplaceRecord_is_bid (o : IcebergOrder) (os ns sc op ts : ℚ)
    (np : Option ℚ) : (o.appendReplaceRecord os ns sc op ts np).is_bid = o.is_bid := rfl

@[simp] theorem appendReplaceRecord_total_filled (o : IcebergOrder) (os ns sc op ts : ℚ)
    (np : Option ℚ) : (o.appendReplaceRecord os ns sc op ts np).total_filled = o.total_filled := rfl

@[simp] theorem appendReplaceRecord_execution_percentage (o : IcebergOrder) (os ns sc op ts : ℚ)
    (np : Option ℚ) :
    (o.appendReplaceRecord os ns sc op ts np).execution_percentage = o.execution_percentage := rfl

@[simp] theorem appendReplaceRecord_refill_count (o : IcebergOrder) (os ns sc op ts : ℚ)
    (np : Option ℚ) : (o.appendReplaceRecord os ns sc op ts np).refill_count = o.refill_count := rfl

@[simp] theorem appendReplaceRecord_size_decrease_count (o : IcebergOrder) (os ns sc op ts : ℚ)
    (np : Option ℚ) :
    (o.appendReplaceRecord os ns sc op ts np).size_decrease_count = o.size_decrease_count := rfl

@[simp] theorem appendReplaceRecord_consecutive_refills (o : IcebergOrder) (os ns sc op ts : ℚ)
    (np : Option ℚ) :
    (o.appendReplaceRecord os ns sc op ts np).consecutive_refills = o.consecutive_refills := rfl

@[simp] theorem appendReplaceRecord_is_confirmed (o : IcebergOrder) (os ns sc op ts : ℚ)
    (np : Option ℚ) :
    (o.appendReplaceRecord os ns sc op ts np).is_confirmed_iceberg = o.is_confirmed_iceberg := rfl

@[simp] theorem appendReplaceRecord_last_reported (o : IcebergOrder) (os ns sc op ts : ℚ)
    (np : Option ℚ) :
    (o.appendReplaceRecord os ns sc op ts np).last_reported_filled = o.last_reported_filled := rfl

@[simp] theorem appendReplaceRecord_current_price (o : IcebergOrder) (os ns sc op ts : ℚ)
    (np : Option ℚ) : (o.appendReplaceRecord os ns sc op ts np).current_price = o.current_price := rfl

@[simp] theorem appendReplaceRecord_price_history (o : IcebergOrder) (os ns sc op ts : ℚ)
    (np : Option ℚ) : (o.appendReplaceRecord os ns sc op ts np).price_history = o.price_history := rfl

theorem appendReplaceRecord_replace_events (o : IcebergOrder) (os ns sc op ts : ℚ)
    (np : Option ℚ) :
    ∃ r : ReplaceRecord, (o.appendReplaceRecord os ns sc op ts np).replace_events =
      o.replace_events ++ [r] ∧ r.size_change = sc := ⟨_, rfl, rfl⟩

@[simp] theorem trackSizeDecrease_order_id (o : IcebergOrder) (sc ts : ℚ) :
    (o.trackSizeDecrease sc ts).order_id = o.order_id := by
  simp only [IcebergOrder.trackSizeDecrease]; split <;> simp

@[simp] theorem trackSizeDecrease_initial_size (o : IcebergOrder) (sc ts : ℚ) :
    (o.trackSizeDecrease sc ts).initial_size = o.initial_size := by
  simp only [IcebergOrder.trackSizeDecrease]; split <;> simp

@[simp] theorem trackSizeDecrease_current_size (o : IcebergOrder) (sc ts : ℚ) :
    (o.trackSizeDecrease sc ts).current_size = o.current_size := by
  simp only [IcebergOrder.trackSizeDecrease]; split <;> simp

@[simp] theorem trackSizeDecrease_max_visible_size (o : IcebergOrder) (sc ts : ℚ) :
    (o.trackSizeDecrease sc ts).max_visible_size = o.max_visible_size := by
  simp only [IcebergOrder.trackSizeDecrease]; split <;> simp

@[simp] theorem trackSizeDecrease_min_size_seen (o : IcebergOrder) (sc ts : ℚ) :
    (o.trackSizeDecrease sc ts).min_size_seen = o.min_size_seen := by
  simp only [IcebergOrder.trackSizeDecrease]; split <;> simp

@[simp] theorem trackSizeDecrease_is_bid (o : IcebergOrder) (sc ts : ℚ) :
    (o.trackSizeDecrease sc ts).is_bid = o.is_bid := by
  simp only [IcebergOrder.trackSizeDecrease]; split <;> simp

@[simp] theorem trackSizeDecrease_refill_count (o : IcebergOrder) (sc ts : ℚ) :
    (o.trackSizeDecrease sc ts).refill_count = o.refill_count := by
  simp only [IcebergOrder.trackSizeDecrease]; split <;> simp

@[simp] theorem trackSizeDecrease_consecutive_refills (o : IcebergOrder) (sc ts : ℚ) :
    (o.trackSizeDecrease sc ts).consecutive_refills = o.consecutive_refills := by
  simp only [IcebergOrder.trackSizeDecrease]; split <;> simp

@[simp] theorem trackSizeDecrease_is_confirmed (o : IcebergOrder) (sc ts : ℚ) :
    (o.trackSizeDecrease sc ts).is_confirmed_iceberg = o.is_confirmed_iceberg := by
  simp only [IcebergOrder.trackSizeDecrease]; split <;> simp

@[simp] theorem trackSizeDecrease_last_reported (o : IcebergOrder) (sc ts : ℚ) :
    (o.trackSizeDecrease sc ts).last_reported_filled = o.last_reported_filled := by
  simp only [IcebergOrder.trackSizeDecrease]; split <;> simp

@[simp] theorem trackSizeDecrease_current_price (o : IcebergOrder) (sc ts : ℚ) :
    (o.trackSizeDecrease sc ts).current_price = o.current_price := by
  simp only [IcebergOrder.trackSizeDecrease]; split <;> simp

@[simp] theorem trackSizeDecrease_price_history (o : IcebergOrder) (sc ts : ℚ) :
    (o.trackSizeDecrease sc ts).price_history = o.price_history := by
  simp only [IcebergOrder.trackSizeDecrease]; split <;> simp

@[simp] theorem trackSizeDecrease_replace_events (o : IcebergOrder) (sc ts : ℚ) :
    (o.trackSizeDecrease sc ts).replace_events = o.replace_events := by
  simp only [IcebergOrder.trackSizeDecrease]; split <;> simp

theorem trackSizeDecrease_total_filled (o : IcebergOrder) (sc ts : ℚ) :
    (o.trackSizeDecrease sc ts).total_filled =
      if sc < 0 then o.total_filled + |sc| else o.total_filled := by
  simp only [IcebergOrder.trackSizeDecrease]
  split <;> simp_all

theorem trackSizeDecrease_execution_percentage_of_nonneg (o : IcebergOrder) (sc ts : ℚ)
    (h : ¬ sc < 0) :
    (o.trackSizeDecrease sc ts).execution_percentage = o.execution_percentage := by
  simp only [IcebergOrder.trackSizeDecrease]
  rw [if_neg h]

@[simp] theorem trackBounds_order_id (o : IcebergOrder) (ns : ℚ) :
    (o.trackBounds ns).order_id = o.order_id := by
  simp only [IcebergOrder.trackBounds]; split_ifs <;> rfl

@[simp] theorem trackBounds_initial_size (o : IcebergOrder) (ns : ℚ) :
    (o.trackBounds ns).initial_size = o.initial_size := by
  simp only [IcebergOrder.trackBounds]; split_ifs <;> rfl

@[simp] theorem trackBounds_current_size (o : IcebergOrder) (ns : ℚ) :
    (o.trackBounds ns).current_size = o.current_size := by
  simp only [IcebergOrder.trackBounds]; split_ifs <;> rfl

@[simp] theorem trackBounds_is_bid (o : IcebergOrder) (ns : ℚ) :
    (o.trackBounds ns).is_bid = o.is_bid := by
  simp only [IcebergOrder.trackBounds]; split_ifs <;> rfl

@[simp] theorem trackBounds_total_filled (o : IcebergOrder) (ns : ℚ) :
    (o.trackBounds ns).total_filled = o.total_filled := by
  simp only [IcebergOrder.trackBounds]; split_ifs <;> rfl

@[simp] theorem trackBounds_execution_percentage (o : IcebergOrder) (ns : ℚ) :
    (o.trackBounds ns).execution_percentage = o.execution_percentage := by
  simp only [IcebergOrder.trackBounds]; split_ifs <;> rfl

@[simp] theorem trackBounds_refill_count (o : IcebergOrder) (ns : ℚ) :
    (o.trackBounds ns).refill_count = o.refill_count := by
  simp only [IcebergOrder.trackBounds]; split_ifs <;> rfl

@[simp] theorem trackBounds_size_decrease_count (o : IcebergOrder) (ns : ℚ) :
    (o.trackBounds ns).size_decrease_count = o.size_decrease_count := by
  simp only [IcebergOrder.trackBounds]; split_ifs <;> rfl

@[simp] theorem trackBounds_consecutive_refills (o : IcebergOrder) (ns : ℚ) :
    (o.trackBounds ns).consecutive_refills = o.consecutive_refills := by
  simp only [IcebergOrder.trackBounds]; split_ifs <;> rfl

@[simp] theorem trackBounds_is_confirmed (o : IcebergOrder) (ns : ℚ) :
    (o.trackBounds ns).is_confirmed_iceberg = o.is_confirmed_iceberg := by
  simp only [IcebergOrder.trackBounds]; split_ifs <;> rfl

@[simp] theorem trackBounds_last_reported (o : IcebergOrder) (ns : ℚ) :
    (o.trackBounds ns).last_reported_filled = o.last_reported_filled := by
  simp only [IcebergOrder.trackBounds]; split_ifs <;> rfl

@[simp] theorem trackBounds_current_price (o : IcebergOrder) (ns : ℚ) :
    (o.trackBounds ns).current_price = o.current_price := by
  simp only [IcebergOrder.trackBounds]; split_ifs <;> rfl

@[simp] theorem trackBounds_price_history (o : IcebergOrder) (ns : ℚ) :
    (o.trackBounds ns).price_history = o.price_history := by
  simp only [IcebergOrder.trackBounds]; split_ifs <;> rfl

@[simp] theorem trackBounds_replace_events (o : IcebergOrder) (ns : ℚ) :
    (o.trackBounds ns).replace_events = o.replace_events := by
  simp only [IcebergOrder.trackBounds]; split_ifs <;> rfl

theorem trackBounds_min_size_seen (o : IcebergOrder) (ns : ℚ) :
    (o.trackBounds ns).min_size_seen =
      if ns < o.min_size_seen then ns else o.min_size_seen := by
  simp only [IcebergOrder.trackBounds]; split_ifs <;> rfl

theorem trackBounds_max_visible_size (o : IcebergOrder) (ns : ℚ) :
    (o.trackBounds ns).max_visible_size =
      if o.max_visible_size < ns then ns else o.max_visible_size := by
  simp only [IcebergOrder.trackBounds]; split_ifs <;> rfl

@[simp] theorem trackRefill_order_id (o : IcebergOrder) (sc os : ℚ) :
    (o.trackRefill sc os).order_id = o.order_id := by
  simp only [IcebergOrder.trackRefill]; split <;> rfl

@[simp] theorem trackRefill_initial_size (o : IcebergOrder) (sc os : ℚ) :
    (o.trackRefill sc os).initial_size = o.initial_size := by
  simp only [IcebergOrder.trackRefill]; split <;> rfl

@[simp] theorem trackRefill_current_size (o : IcebergOrder) (sc os : ℚ) :
    (o.trackRefill sc os).current_size = o.current_size := by
  simp only [IcebergOrder.trackRefill]; split <;> rfl

@[simp] theorem trackRefill_max_visible_size (o : IcebergOrder) (sc os : ℚ) :
    (o.trackRefill sc os).max_visible_size = o.max_visible_size := by
  simp only [IcebergOrder.trackRefill]; split <;> rfl

@[simp] theorem trackRefill_min_size_seen (o : IcebergOrder) (sc os : ℚ) :
    (o.trackRefill sc os).min_size_seen = o.min_size_seen := by
  simp only [IcebergOrder.trackRefill]; split <;> rfl

@[simp] theorem trackRefill_is_bid (o : IcebergOrder) (sc os : ℚ) :
    (o.trackRefill sc os).is_bid = o.is_bid := by
  simp only [IcebergOrder.trackRefill]; split <;> rfl

@[simp] theorem trackRefill_total_filled (o : IcebergOrder) (sc os : ℚ) :
    (o.trackRefill sc os).total_filled = o.total_filled := by
  simp only [IcebergOrder.trackRefill]; split <;> rfl

@[simp] theorem trackRefill_execution_percentage (o : IcebergOrder) (sc os : ℚ) :
    (o.trackRefill sc os).execution_percentage = o.execution_percentage := by
  simp only [IcebergOrder.trackRefill]; split <;> rfl

@[simp] theorem trackRefill_size_decrease_count (o : IcebergOrder) (sc os : ℚ) :
    (o.trackRefill sc os).size_decrease_count = o.size_decrease_count := by
  simp only [IcebergOrder.trackRefill]; split <;> rfl

@[simp] theorem trackRefill_is_confirmed (o : IcebergOrder) (sc os : ℚ) :
    (o.trackRefill sc os).is_confirmed_iceberg = o.is_confirmed_iceberg := by
  simp only [IcebergOrder.trackRefill]; split <;> rfl

@[simp] theorem trackRefill_last_reported (o : IcebergOrder) (sc os : ℚ) :
    (o.trackRefill sc os).last_reported_filled = o.last_reported_filled := by
  simp only [IcebergOrder.trackRefill]; split <;> rfl

@[simp] theorem trackRefill_current_price (o : IcebergOrder) (sc os : ℚ) :
    (o.trackRefill sc os).current_price = o.current_price := by
  simp only [IcebergOrder.trackRefill]; split <;> rfl

@[simp] theorem trackRefill_price_history (o : IcebergOrder) (sc os : ℚ) :
    (o.trackRefill sc os).price_history = o.price_history := by
  simp only [IcebergOrder.trackRefill]; split <;> rfl

@[simp] theorem trackRefill_replace_events (o : IcebergOrder) (sc os : ℚ) :
    (o.trackRefill sc os).replace_events = o.replace_events := by
  simp only [IcebergOrder.trackRefill]; split <;> rfl

theorem trackRefill_refill_count (o : IcebergOrder) (sc os : ℚ) :
    (o.trackRefill sc os).refill_count =
      if 0 < sc ∧ os < o.initial_size then o.refill_count + 1 else o.refill_count := by
  simp only [IcebergOrder.trackRefill]; split_ifs <;> rfl

end MBO

namespace MBO

theorem add_replace_event_current_size (o : IcebergOrder) (ns ts : ℚ) (np : Option ℚ) :
    (o.add_replace_event ns ts np).current_size = ns := rfl

theorem add_replace_event_last_update (o : IcebergOrder) (ns ts : ℚ) (np : Option ℚ) :
    (o.add_replace_event ns ts np).last_update = ts := rfl

theorem add_replace_event_initial_size (o : IcebergOrder) (ns ts : ℚ) (np : Option ℚ) :
    (o.add_replace_event ns ts np).initial_size = o.initial_size := by
  simp [IcebergOrder.add_replace_event]

theorem add_replace_event_order_id (o : IcebergOrder) (ns ts : ℚ) (np : Option ℚ) :
    (o.add_replace_event ns ts np).order_id = o.order_id := by
  simp [IcebergOrder.add_replace_event]

theorem add_replace_event_is_bid (o : IcebergOrder) (ns ts : ℚ) (np : Option ℚ) :
    (o.add_replace_event ns ts np).is_bid = o.is_bid := by
  simp [IcebergOrder.add_replace_event]

theorem add_replace_event_is_confirmed (o : IcebergOrder) (ns ts : ℚ) (np : Option ℚ) :
    (o.add_replace_event ns ts np).is_confirmed_iceberg = o.is_confirmed_iceberg := by
  simp [IcebergOrder.add_replace_event]

theorem add_replace_event_last_reported (o : IcebergOrder) (ns ts : ℚ) (np : Option ℚ) :
    (o.add_replace_event ns ts np).last_reported_filled = o.last_reported_filled := by
  simp [IcebergOrder.add_replace_event]

theorem add_replace_event_total_filled (o : IcebergOrder) (ns ts : ℚ) (np : Option ℚ) :
    (o.add_replace_event ns ts np).total_filled =
      if ns - o.current_size < 0 then o.total_filled + |ns - o.current_size|
      else o.total_filled := by
  simp [IcebergOrder.add_replace_event, trackSizeDecrease_total_filled]

theorem add_replace_event_execution_percentage (o : IcebergOrder) (ns ts : ℚ)
    (np : Option ℚ) (h : ¬ ns - o.current_size < 0) :
    (o.add_replace_event ns ts np).execution_percentage = o.execution_percentage := by
  simp [IcebergOrder.add_replace_event,
    trackSizeDecrease_execution_percentage_of_nonneg _ _ _ h]

theorem add_replace_event_replace_events (o : IcebergOrder) (ns ts : ℚ) (np : Option ℚ) :
    ∃ r : ReplaceRecord, (o.add_replace_event ns ts np).replace_events =
      o.replace_events ++ [r] ∧ r.size_change = ns - o.current_size := by
  simp only [IcebergOrder.add_replace_event, trackRefill_replace_events,
    trackBounds_replace_events, trackSizeDecrease_replace_events]
  obtain ⟨r, hr, hsc⟩ := appendReplaceRecord_replace_events (o.trackPriceChange np)
    o.current_size ns (ns - o.current_size) o.current_price ts np
  exact ⟨r, by simp [hr], hsc⟩

theorem add_replace_event_price_fields (o : IcebergOrder) (ns ts : ℚ) (np : Option ℚ) :
    ((o.add_replace_event ns ts np).current_price,
      (o.add_replace_event ns ts np).price_history) =
      match np with
      | some p =>
        if p ≠ o.current_price then
          (p, if p ∈ o.price_history then o.price_history else o.price_history ++ [p])
        else (o.current_price, o.price_history)
      | none => (o.current_price, o.price_history) := by
  have h := trackPriceChange_price_fields o np
  simp only [IcebergOrder.add_replace_event, Prod.ext_iff] at h ⊢
  constructor
  · simpa using h.1
  · simpa using h.2

theorem add_replace_event_refill_count (o : IcebergOrder) (ns ts : ℚ) (np : Option ℚ) :
    (o.add_replace_event ns ts np).refill_count =
      if 0 < ns - o.current_size ∧ o.current_size < o.initial_size then
        o.refill_count + 1
      else o.refill_count := by
  simp [IcebergOrder.add_replace_event, trackRefill_refill_count,
    trackSizeDecrease_total_filled]

end MBO

namespace Icev3

theorem add_execution_eq_v3 (o : IcebergOrder) (f ts : ℚ) (act : Bool) :
    o.add_execution f ts act =
      { o with
        active_filled := if act then o.active_filled + f else o.active_filled,
        passive_filled := if act then o.passive_filled else o.passive_filled + f,
        total_filled := o.total_filled + f,
        last_update := ts,
        execution_percentage :=
          if 0 < max (o.total_filled + f + o.current_size) o.max_visible_size then
            (o.total_filled + f) / max (o.total_filled + f + o.current_size) o.max_visible_size
          else o.execution_percentage } := by
  cases act <;>
    simp only [IcebergOrder.add_execution, Bool.false_eq_true, if_true, if_false] <;>
    split <;> rfl

@[simp] theorem trackPriceChange_total_filled_v3 (o : IcebergOrder) (np : Option ℚ) :
    (o.trackPriceChange np).total_filled = o.total_filled := by
  cases np with
  | none => rfl
  | some p => simp only [IcebergOrder.trackPriceChange]; split <;> rfl

@[simp] theorem trackPriceChange_execution_percentage_v3 (o : IcebergOrder) (np : Option ℚ) :
    (o.trackPriceChange np).execution_percentage = o.execution_percentage := by
  cases np with
  | none => rfl
  | some p => simp only [IcebergOrder.trackPriceChange]; split <;> rfl

@[simp] theorem appendReplaceRecord_total_filled_v3 (o : IcebergOrder) (os ns op ts : ℚ)
    (np : Option ℚ) : (o.appendReplaceRecord os ns op ts np).total_filled = o.total_filled := rfl

@[simp] theorem appendReplaceRecord_execution_percentage_v3 (o : IcebergOrder) (os ns op ts : ℚ)
    (np : Option ℚ) :
    (o.appendReplaceRecord os ns op ts np).execution_percentage = o.execution_percentage := rfl

@[simp] theorem trackSizeDecrease_total_filled_v3 (o : IcebergOrder) (sc : ℚ) :
    (o.trackSizeDecrease sc).total_filled = o.total_filled := by
  simp only [IcebergOrder.trackSizeDecrease]; split <;> rfl

@[simp] theorem trackSizeDecrease_execution_percentage_v3 (o : IcebergOrder) (sc : ℚ) :
    (o.trackSizeDecrease sc).execution_percentage = o.execution_percentage := by
  simp only [IcebergOrder.trackSizeDecrease]; split <;> rfl

@[simp] theorem trackBounds_total_filled_v3 (o : IcebergOrder) (ns : ℚ) :
    (o.trackBounds ns).total_filled = o.total_filled := by
  simp only [IcebergOrder.trackBounds]; split_ifs <;> rfl

@[simp] theorem trackBounds_execution_percentage_v3 (o : IcebergOrder) (ns : ℚ) :
    (o.trackBounds ns).execution_percentage = o.execution_percentage := by
  simp only [IcebergOrder.trackBounds]; split_ifs <;> rfl

@[simp] theorem trackRefill_total_filled_v3 (o : IcebergOrder) (sc os : ℚ) :
    (o.trackRefill sc os).total_filled = o.total_filled := by
  simp only [IcebergOrder.trackRefill]; split <;> rfl

@[simp] theorem trackRefill_execution_percentage_v3 (o : IcebergOrder) (sc os : ℚ) :
    (o.trackRefill sc os).execution_percentage = o.execution_percentage := by
  simp only [IcebergOrder.trackRefill]; split <;> rfl

theorem add_replace_event_total_filled_v3 (o : IcebergOrder) (ns ts : ℚ) (np : Option ℚ) :
    (o.add_replace_event ns ts np).total_filled = o.total_filled := by
  simp [IcebergOrder.add_replace_event]

theorem add_replace_event_execution_percentage_v3 (o : IcebergOrder) (ns ts : ℚ) (np : Option ℚ) :
    (o.add_replace_event ns ts np).execution_percentage = o.execution_percentage := by
  simp [IcebergOrder.add_replace_event]

end Icev3

namespace MBO

@[simp] theorem applyEvents_nil (o : IcebergOrder) : o.applyEvents [] = o := rfl

@[simp] theorem applyEvents_cons (o : IcebergOrder) (e : OrderEvent) (es : List OrderEvent) :
    o.applyEvents (e :: es) = (o.applyEvent e).applyEvents es := rfl

theorem applyEvents_current_size (o : IcebergOrder) (es : List OrderEvent) :
    (o.applyEvents es).current_size = netReplaceCurrentSize o.current_size es := by
  induction es generalizing o with
  | nil => rfl
  | cons e rest ih =>
    cases e with
    | replace ns ts np =>
      simp [netReplaceCurrentSize, ih, IcebergOrder.applyEvent,
        add_replace_event_current_size]
    | exec f ts =>
      simp [netReplaceCurrentSize, ih, IcebergOrder.applyEvent]

theorem applyEvents_size_sum (o : IcebergOrder) (es : List OrderEvent)
    (h : o.current_size = o.initial_size + (o.replace_events.map ReplaceRecord.size_change).sum) :
    (o.applyEvents es).current_size =
      (o.applyEvents es).initial_size +
        ((o.applyEvents es).replace_events.map ReplaceRecord.size_change).sum := by
  induction es generalizing o with
  | nil => exact h
  | cons e rest ih =>
    cases e with
    | exec f ts =>
      apply ih
      simpa [IcebergOrder.applyEvent] using h
    | replace ns ts np =>
      apply ih
      obtain ⟨r, hr, hsc⟩ := add_replace_event_replace_events o ns ts np
      simp only [IcebergOrder.applyEvent, add_replace_event_current_size,
        add_replace_event_initial_size, hr, List.map_append, List.sum_append,
        List.map_cons, List.map_nil, List.sum_cons, List.sum_nil, hsc]
      linarith [h]

theorem netReplaceCurrentSize_nonneg (cs : ℚ) (es : List OrderEvent)
    (h0 : 0 ≤ cs) (h : replaceSizesNonneg es) : 0 ≤ netReplaceCurrentSize cs es := by
  induction es generalizing cs with
  | nil => exact h0
  | cons e rest ih =>
    cases e with
    | replace ns ts np =>
      exact ih ns (h _ (List.mem_cons_self _ _) ns ts np rfl)
        (fun e he => h e (List.mem_cons_of_mem _ he))
    | exec f ts =>
      exact ih cs h0 (fun e he => h e (List.mem_cons_of_mem _ he))

/-- C2 counterexample: a fresh order of size 10 receives one direct execution
of 5 and no replace events; the claim predicts
`current_size = initial_size + 0 - total_filled = 5`, but `add_execution`
never writes `current_size`, which stays 10. -/
theorem c2_counterexample :
    c2Order.current_size = 10 ∧ c2Order.total_filled = 5 ∧
    c2Order.initial_size + 0 - c2Order.total_filled = 5 ∧
    c2Order.current_size ≠ c2Order.initial_size + 0 - c2Order.total_filled := by
  refine ⟨by with_unfolding_all rfl, by with_unfolding_all rfl,
    by with_unfolding_all rfl, ?_⟩
  rw [show c2Order.current_size = 10 from by with_unfolding_all rfl,
    show c2Order.initial_size + 0 - c2Order.total_filled = 5 from by with_unfolding_all rfl]
  norm_num

/-- C2 (amended): for every tracked order and every sequence of replace and
execution events, `current_size` equals `initial_size` plus the net of all
replace-driven size deltas (equivalently, the last replace's new size);
recorded fills never change `current_size`; and with non-negative initial and
replace sizes `current_size` is never negative. -/
theorem c2_current_size_from_replaces_only (oid : Nat) (p isz : ℚ) (b : Bool)
    (ts : ℚ) (tid : Option Nat) (es : List OrderEvent) :
    ((IcebergOrder.init oid p isz b ts tid).applyEvents es).current_size =
      netReplaceCurrentSize isz es ∧
    ((IcebergOrder.init oid p isz b ts tid).applyEvents es).current_size =
      ((IcebergOrder.init oid p isz b ts tid).applyEvents es).initial_size +
        (((IcebergOrder.init oid p isz b ts tid).applyEvents es).replace_events.map
          ReplaceRecord.size_change).sum ∧
    (0 ≤ isz → replaceSizesNonneg es →
      0 ≤ ((IcebergOrder.init oid p isz b ts tid).applyEvents es).current_size) := by
  refine ⟨?_, ?_, ?_⟩
  · exact applyEvents_current_size (IcebergOrder.init oid p isz b ts tid) es
  · exact applyEvents_size_sum _ es (by simp [IcebergOrder.init])
  · intro h0 hnn
    rw [applyEvents_current_size (IcebergOrder.init oid p isz b ts tid) es]
    exact netReplaceCurrentSize_nonneg _ es h0 hnn

/-- Witness for C2's amended theorem at a concrete input: order of size 10,
one execution of 5, `current_size` stays non-negative. -/
theorem c2_witness :
    0 ≤ ((IcebergOrder.init 1 100 10 true 0 none).applyEvents
      [OrderEvent.exec 5 1]).current_size := by
  refine (c2_current_size_from_replaces_only 1 100 10 true 0 none
    [OrderEvent.exec 5 1]).2.2 (by norm_num) ?_
  intro e he ns ts np heq
  simp only [List.mem_singleton] at he
  subst he
  simp at heq

theorem add_replace_event_price_history (o : IcebergOrder) (ns ts : ℚ) (np : Option ℚ) :
    (o.add_replace_event ns ts np).price_history = (o.trackPriceChange np).price_history := by
  simp [IcebergOrder.add_replace_event]

theorem add_replace_event_current_price (o : IcebergOrder) (ns ts : ℚ) (np : Option ℚ) :
    (o.add_replace_event ns ts np).current_price = (o.trackPriceChange np).current_price := by
  simp [IcebergOrder.add_replace_event]

theorem trackPriceChange_price_invariant (o : IcebergOrder) (np : Option ℚ)
    (h1 : o.price_history.Nodup) (h2 : o.current_price ∈ o.price_history) :
    (o.trackPriceChange np).price_history.Nodup ∧
      (o.trackPriceChange np).current_price ∈ (o.trackPriceChange np).price_history := by
  cases np with
  | none => exact ⟨h1, h2⟩
  | some p =>
    simp only [IcebergOrder.trackPriceChange]
    split
    · dsimp only
      by_cases hmem : p ∈ o.price_history
      · rw [if_pos hmem]
        exact ⟨h1, hmem⟩
      · rw [if_neg hmem]
        refine ⟨h1.append (List.nodup_singleton p) ?_, by simp⟩
        intro a ha hb
        simp only [List.mem_singleton] at hb
        subst hb
        exact hmem ha
    · exact ⟨h1, h2⟩

theorem add_replace_event_price_invariant (o : IcebergOrder) (ns ts : ℚ) (np : Option ℚ)
    (h1 : o.price_history.Nodup) (h2 : o.current_price ∈ o.price_history) :
    (o.add_replace_event ns ts np).price_history.Nodup ∧
      (o.add_replace_event ns ts np).current_price ∈
        (o.add_replace_event ns ts np).price_history := by
  rw [add_replace_event_price_history, add_replace_event_current_price]
  exact trackPriceChange_price_invariant o np h1 h2

theorem applyEvents_price_invariant (o : IcebergOrder) (es : List OrderEvent)
    (h1 : o.price_history.Nodup) (h2 : o.current_price ∈ o.price_history) :
    (o.applyEvents es).price_history.Nodup ∧
      (o.applyEvents es).current_price ∈ (o.applyEvents es).price_history := by
  induction es generalizing o with
  | nil => exact ⟨h1, h2⟩
  | cons e rest ih =>
    cases e with
    | exec f ts =>
      exact ih _ (by simpa [IcebergOrder.applyEvent] using h1)
        (by simpa [IcebergOrder.applyEvent] using h2)
    | replace ns ts np =>
      obtain ⟨n1, n2⟩ := add_replace_event_price_invariant o ns ts np h1 h2
      exact ih _ n1 n2

/-- C5 counterexample: replaces move the price 100 → 101 → back to 100.  The
revisit sets `current_price := 100` without re-appending it, so
`current_price` is not the last element of `price_history` (which is 101). -/
theorem c5_counterexample :
    c5Order.price_history = [100, 101] ∧
    c5Order.current_price = 100 ∧
    c5Order.price_history.getLast? ≠ some c5Order.current_price := by
  refine ⟨by with_unfolding_all rfl, by with_unfolding_all rfl, ?_⟩
  rw [show c5Order.price_history = [100, 101] from by with_unfolding_all rfl,
    show c5Order.current_price = 100 from by with_unfolding_all rfl]
  simp only [List.getLast?, ne_eq, Option.some.injEq]
  norm_num

/-- C5 (amended): over every sequence of replace and execution events,
`price_history` never contains duplicate prices and `current_price` is
always a member of `price_history` (it is the last element only when the
most recent price move went to a previously unvisited price). -/
theorem c5_price_history_nodup_and_mem (oid : Nat) (p isz : ℚ) (b : Bool)
    (ts : ℚ) (tid : Option Nat) (es : List OrderEvent) :
    ((IcebergOrder.init oid p isz b ts tid).applyEvents es).price_history.Nodup ∧
    ((IcebergOrder.init oid p isz b ts tid).applyEvents es).current_price ∈
      ((IcebergOrder.init oid p isz b ts tid).applyEvents es).price_history := by
  exact applyEvents_price_invariant _ es (by simp [IcebergOrder.init])
    (by simp [IcebergOrder.init])

theorem get_iceberg_score_eq_amended (o : IcebergOrder) :
    o.get_iceberg_score = amendedIcebergScore o := by
  simp only [IcebergOrder.get_iceberg_score, amendedIcebergScore]
  split_ifs <;> ring_nf

theorem amendedIcebergScore_bounds (o : IcebergOrder) :
    0 ≤ amendedIcebergScore o ∧ amendedIcebergScore o ≤ 1 := by
  unfold amendedIcebergScore
  refine ⟨le_min ?_ (by norm_num), min_le_right _ _⟩
  have t1 : (0:ℚ) ≤
      if 0 < o.max_visible_size ∧ 3/10 < o.min_size_seen / o.max_visible_size then
        (3/10 : ℚ) else 0 := by
    split <;> norm_num
  have t2 : (0:ℚ) ≤
      if 2 ≤ o.refill_count then min (4/10) ((o.refill_count : ℚ) * (1/10)) else 0 := by
    split
    · exact le_min (by norm_num) (by positivity)
    · norm_num
  have t3 : (0:ℚ) ≤
      if 3/2 < o.get_execution_ratio then
        min (3/10) (o.get_execution_ratio * (1/10)) else 0 := by
    split
    · next h => exact le_min (by norm_num) (by nlinarith)
    · norm_num
  linarith

/-- C6 counterexample: the reachable state 10 → 2 → 10 has exactly one
refill, `min/max = 0.2` and execution ratio `0.8`; the code's score is 0 (the
refill component needs `refill_count ≥ 2`), while the claim's "0.1 per
refill" formula gives 0.1. -/
theorem c6_counterexample :
    c6Order.refill_count = 1 ∧
    c6Order.get_iceberg_score = 0 ∧
    claimIcebergScore c6Order = 1/10 ∧
    c6Order.get_iceberg_score ≠ claimIcebergScore c6Order := by
  refine ⟨by with_unfolding_all rfl, by with_unfolding_all rfl,
    by with_unfolding_all rfl, ?_⟩
  rw [show c6Order.get_iceberg_score = 0 from by with_unfolding_all rfl,
    show claimIcebergScore c6Order = 1/10 from by with_unfolding_all rfl]
  norm_num

/-- C6 (amended): `get_iceberg_score` equals the weighted-sum formula capped
at 1 in which the refill component (0.1 per refill, capped at 0.4) applies
only once `refill_count ≥ 2`; and the result always lies in `[0, 1]`. -/
theorem c6_score_formula_and_bounds :
    ∀ o : IcebergOrder,
      o.get_iceberg_score = amendedIcebergScore o ∧
      0 ≤ o.get_iceberg_score ∧ o.get_iceberg_score ≤ 1 := by
  intro o
  have he := get_iceberg_score_eq_amended o
  have hb := amendedIcebergScore_bounds o
  exact ⟨he, he ▸ hb.1, he ▸ hb.2⟩

/-- C9: `add_execution` (in both sources) modifies only the fill-accounting
fields — `total_filled`, the execution log respectively the active/passive
split, `execution_percentage` — and `last_update`; every other field,
in particular `current_size`, the size bounds, the price fields and all
refill/decrease counters, is left unchanged. -/
theorem c9_add_execution_frame :
    (∀ (o : IcebergOrder) (f ts : ℚ),
      (o.add_execution f ts).total_filled = o.total_filled + f ∧
      (o.add_execution f ts).last_update = ts ∧
      (o.add_execution f ts).current_size = o.current_size ∧
      (o.add_execution f ts).min_size_seen = o.min_size_seen ∧
      (o.add_execution f ts).max_visible_size = o.max_visible_size ∧
      (o.add_execution f ts).price_history = o.price_history ∧
      (o.add_execution f ts).current_price = o.current_price ∧
      (o.add_execution f ts).price_changes = o.price_changes ∧
      (o.add_execution f ts).refill_count = o.refill_count ∧
      (o.add_execution f ts).size_decrease_count = o.size_decrease_count ∧
      (o.add_execution f ts).consecutive_refills = o.consecutive_refills ∧
      (o.add_execution f ts).replace_events = o.replace_events ∧
      (o.add_execution f ts).is_confirmed_iceberg = o.is_confirmed_iceberg ∧
      (o.add_execution f ts).initial_size = o.initial_size ∧
      (o.add_execution f ts).last_reported_filled = o.last_reported_filled) ∧
    (∀ (o : Icev3.IcebergOrder) (f ts : ℚ) (act : Bool),
      (o.add_execution f ts act).total_filled = o.total_filled + f ∧
      (o.add_execution f ts act).last_update = ts ∧
      (o.add_execution f ts act).current_size = o.current_size ∧
      (o.add_execution f ts act).min_size_seen = o.min_size_seen ∧
      (o.add_execution f ts act).max_visible_size = o.max_visible_size ∧
      (o.add_execution f ts act).price_history = o.price_history ∧
      (o.add_execution f ts act).current_price = o.current_price ∧
      (o.add_execution f ts act).price_changes = o.price_changes ∧
      (o.add_execution f ts act).refill_count = o.refill_count ∧
      (o.add_execution f ts act).size_decrease_count = o.size_decrease_count ∧
      (o.add_execution f ts act).replace_events = o.replace_events ∧
      (o.add_execution f ts act).is_confirmed_iceberg = o.is_confirmed_iceberg ∧
      (o.add_execution f ts act).initial_size = o.initial_size ∧
      (o.add_execution f ts act).last_reported_filled = o.last_reported_filled) := by
  constructor
  · intro o f ts
    simp [add_execution_eq]
  · intro o f ts act
    simp [Icev3.add_execution_eq_v3]

/-- C10 counterexample: the same decreasing replace (size 10 → 5) applied to
identically initialized orders leaves `total_filled = 5` in the
icetomultipletopicsv2slowed.py implementation (which infers a fill from the
decrease) but `total_filled = 0` in the icev3.py implementation (which only
counts the decrease). -/
theorem c10_counterexample :
    (c10OrderV2.add_replace_event 5 1 none).total_filled = 5 ∧
    (c10OrderV3.add_replace_event 5 1 none).total_filled = 0 ∧
    (c10OrderV2.add_replace_event 5 1 none).total_filled ≠
      (c10OrderV3.add_replace_event 5 1 none).total_filled := by
  refine ⟨by with_unfolding_all rfl, by with_unfolding_all rfl, ?_⟩
  rw [show (c10OrderV2.add_replace_event 5 1 none).total_filled = 5 from
      by with_unfolding_all rfl,
    show (c10OrderV3.add_replace_event 5 1 none).total_filled = 0 from
      by with_unfolding_all rfl]
  norm_num

/-- C10 (amended): the two `add_replace_event` implementations agree on fill
accounting exactly on non-decreasing replaces: if the two orders agree on
`total_filled` and `execution_percentage` and the new size is not below the
v2 order's current size, both implementations leave `total_filled` and
`execution_percentage` unchanged (hence equal). -/
theorem c10_replace_fill_accounting_agrees (o2 : IcebergOrder) (o3 : Icev3.IcebergOrder)
    (ns ts : ℚ) (np : Option ℚ)
    (hf : o2.total_filled = o3.total_filled)
    (hp : o2.execution_percentage = o3.execution_percentage)
    (hns : o2.current_size ≤ ns) :
    (o2.add_replace_event ns ts np).total_filled =
      (o3.add_replace_event ns ts np).total_filled ∧
    (o2.add_replace_event ns ts np).execution_percentage =
      (o3.add_replace_event ns ts np).execution_percentage := by
  have hnd : ¬ ns - o2.current_size < 0 := by linarith
  constructor
  · rw [add_replace_event_total_filled, if_neg hnd, Icev3.add_replace_event_total_filled_v3]
    exact hf
  · rw [add_replace_event_execution_percentage o2 ns ts np hnd,
      Icev3.add_replace_event_execution_percentage_v3]
    exact hp

/-- Witness for C10's amended theorem: a non-decreasing replace (10 → 12) on
the two identically initialized orders yields equal fill accounting. -/
theorem c10_witness :
    (c10OrderV2.add_replace_event 12 1 none).total_filled =
      (c10OrderV3.add_replace_event 12 1 none).total_filled ∧
    (c10OrderV2.add_replace_event 12 1 none).execution_percentage =
      (c10OrderV3.add_replace_event 12 1 none).execution_percentage := by
  exact c10_replace_fill_accounting_agrees c10OrderV2 c10OrderV3 12 1 none
    (by with_unfolding_all rfl) (by with_unfolding_all rfl) (by norm_num [c10OrderV2, IcebergOrder.init])

end MBO

namespace MBO

/-- C7 counterexample: with the order-size window `[5]` and percentile 75
the claim's selected element is 5, but `get_percentile_order_size` returns
`max 5 20 = 20`, not the element. -/
theorem c7_counterexample :
    c7Metrics.order_sizes = [5] ∧
    claimPercentileSelect c7Metrics 75 = 5 ∧
    c7Metrics.get_percentile_order_size 75 = 20 ∧
    c7Metrics.get_percentile_order_size 75 ≠ claimPercentileSelect c7Metrics 75 := by
  refine ⟨by with_unfolding_all rfl, by with_unfolding_all rfl,
    by with_unfolding_all rfl, ?_⟩
  rw [show c7Metrics.get_percentile_order_size 75 = 20 from by with_unfolding_all rfl,
    show claimPercentileSelect c7Metrics 75 = 5 from by with_unfolding_all rfl]
  norm_num

/-- C7 (amended): on an empty window the fixed floor constant 100 is
returned; on a non-empty window the function selects the element of the
sorted snapshot at index `floor(p/100 * n)` clamped to `[0, n-1]` — an
element of the window — and returns it floored at 20 (`max · 20`), rather
than the element itself. -/
theorem c7_percentile_sorted_select_with_floor (m : MarketMetrics) (p : ℚ) :
    (m.order_sizes = [] → m.get_percentile_order_size p = 100) ∧
    (m.order_sizes ≠ [] →
      claimPercentileSelect m p ∈ m.order_sizes ∧
      m.get_percentile_order_size p = max (claimPercentileSelect m p) 20) := by
  constructor
  · intro h
    simp [MarketMetrics.get_percentile_order_size, h]
  · intro h
    constructor
    · unfold claimPercentileSelect
      have hlen : (m.order_sizes.insertionSort (· ≤ ·)).length = m.order_sizes.length :=
        List.length_insertionSort _ _
      have hpos : 0 < m.order_sizes.length := List.length_pos.mpr h
      have hidx :
          min ((⌊p / 100 * ((m.order_sizes.insertionSort (· ≤ ·)).length : ℚ)⌋).toNat)
            ((m.order_sizes.insertionSort (· ≤ ·)).length - 1) <
            (m.order_sizes.insertionSort (· ≤ ·)).length := by
        rw [hlen]
        exact lt_of_le_of_lt (min_le_right _ _) (Nat.sub_lt hpos Nat.one_pos)
      rw [List.getD_eq_getElem _ _ hidx]
      exact (List.mem_insertionSort (· ≤ ·)).mp (List.getElem_mem hidx)
    · unfold MarketMetrics.get_percentile_order_size claimPercentileSelect
      rw [if_neg h]

/-- Witness for C7's amended theorem at the concrete window `[5]`. -/
theorem c7_witness :
    claimPercentileSelect c7Metrics 75 ∈ c7Metrics.order_sizes ∧
    c7Metrics.get_percentile_order_size 75 = max (claimPercentileSelect c7Metrics 75) 20 := by
  refine (c7_percentile_sorted_select_with_floor c7Metrics 75).2 ?_
  rw [show c7Metrics.order_sizes = [5] from by with_unfolding_all rfl]
  simp

end MBO

namespace MBO

@[simp] theorem lookupA_nil {α β : Type} [DecidableEq α] (a : α) :
    lookupA ([] : List (α × β)) a = none := rfl

theorem lookupA_setA {α β : Type} [DecidableEq α] (l : List (α × β)) (a b : α) (v : β) :
    lookupA (setA l a v) b = if b = a then some v else lookupA l b := by
  induction l with
  | nil => by_cases h : b = a <;> simp [setA, lookupA, h]
  | cons kv rest ih =>
    obtain ⟨k, w⟩ := kv
    simp only [setA]
    by_cases hak : a = k
    · subst hak
      by_cases hba : b = a <;> simp [lookupA, hba]
    · rw [if_neg hak]
      by_cases hbk : b = k
      · subst hbk
        have hba : ¬ b = a := fun hh => hak hh.symm
        simp [lookupA, hba]
      · simp [lookupA, hbk, ih]

theorem lookupA_removeA {α β : Type} [DecidableEq α] (l : List (α × β)) (a b : α) :
    lookupA (removeA l a) b = if b = a then none else lookupA l b := by
  induction l with
  | nil => by_cases h : b = a <;> simp [removeA, lookupA, h]
  | cons kv rest ih =>
    obtain ⟨k, w⟩ := kv
    by_cases hka : k = a
    · subst hka
      by_cases hbk : b = k <;> simp_all [removeA, lookupA, List.filter]
    · by_cases hbk : b = k
      · subst hbk
        simp_all [removeA, lookupA, List.filter, hka]
      · simp_all [removeA, lookupA, List.filter]

@[simp] theorem lookupOrder_setOrder (d : Detector) (j : Nat) (o : IcebergOrder) (i : Nat) :
    (d.setOrder j o).lookupOrder i = if i = j then some o else d.lookupOrder i := by
  simp [Detector.setOrder, Detector.lookupOrder, lookupA_setA]

@[simp] theorem lookupOrder_push (d : Detector) (k : NotifKind) (n i : Nat) :
    (d.push k n).lookupOrder i = d.lookupOrder i := rfl

@[simp] theorem setOrder_notifications (d : Detector) (j : Nat) (o : IcebergOrder) :
    (d.setOrder j o).notifications = d.notifications := rfl

@[simp] theorem setOrder_orders_by_price (d : Detector) (j : Nat) (o : IcebergOrder) :
    (d.setOrder j o).orders_by_price = d.orders_by_price := rfl

@[simp] theorem setOrder_execution_threshold (d : Detector) (j : Nat) (o : IcebergOrder) :
    (d.setOrder j o).execution_threshold = d.execution_threshold := rfl

@[simp] theorem setOrder_alert_ratio (d : Detector) (j : Nat) (o : IcebergOrder) :
    (d.setOrder j o).alert_execution_ratio_threshold = d.alert_execution_ratio_threshold := rfl

@[simp] theorem setOrder_alert_filled (d : Detector) (j : Nat) (o : IcebergOrder) :
    (d.setOrder j o).alert_total_filled_threshold = d.alert_total_filled_threshold := rfl

@[simp] theorem setOrder_size_multiplier (d : Detector) (j : Nat) (o : IcebergOrder) :
    (d.setOrder j o).size_multiplier = d.size_multiplier := rfl

@[simp] theorem setOrder_time_window (d : Detector) (j : Nat) (o : IcebergOrder) :
    (d.setOrder j o).time_window = d.time_window := rfl

@[simp] theorem push_notifications (d : Detector) (k : NotifKind) (n : Nat) :
    (d.push k n).notifications = d.notifications ++ [⟨k, n⟩] := rfl

@[simp] theorem push_active_orders (d : Detector) (k : NotifKind) (n : Nat) :
    (d.push k n).active_orders = d.active_orders := rfl

@[simp] theorem push_orders_by_price (d : Detector) (k : NotifKind) (n : Nat) :
    (d.push k n).orders_by_price = d.orders_by_price := rfl

@[simp] theorem push_execution_threshold (d : Detector) (k : NotifKind) (n : Nat) :
    (d.push k n).execution_threshold = d.execution_threshold := rfl

@[simp] theorem push_alert_ratio (d : Detector) (k : NotifKind) (n : Nat) :
    (d.push k n).alert_execution_ratio_threshold = d.alert_execution_ratio_threshold := rfl

@[simp] theorem push_alert_filled (d : Detector) (k : NotifKind) (n : Nat) :
    (d.push k n).alert_total_filled_threshold = d.alert_total_filled_threshold := rfl

@[simp] theorem push_size_multiplier (d : Detector) (k : NotifKind) (n : Nat) :
    (d.push k n).size_multiplier = d.size_multiplier := rfl

theorem process_order_execution_cases (d : Detector) (oid : Nat) (sz ts : ℚ)
    (o : IcebergOrder) (h : d.lookupOrder oid = some o) (hid : o.order_id = oid) :
    d.process_order_execution oid sz ts = d.setOrder oid (o.add_execution sz ts) ∨
    (o.is_confirmed_iceberg = true ∧
     d.execution_threshold ≤ (o.add_execution sz ts).execution_percentage ∧
     20 ≤ (o.add_execution sz ts).total_filled - o.last_reported_filled ∧
     d.process_order_execution oid sz ts =
       ((d.setOrder oid (o.add_execution sz ts)).push .progress oid).setOrder oid
         { o.add_execution sz ts with
           last_reported_filled := (o.add_execution sz ts).total_filled }) := by
  unfold Detector.process_order_execution Detector.handle_iceberg_near_completion
  rw [h]
  simp only [add_execution_order_id, hid, setOrder_execution_threshold,
    add_execution_is_confirmed, add_execution_last_reported]
  split_ifs with h1 h2 h3 h4
  · right
    exact ⟨h1.1, h2, h4, rfl⟩
  · left; rfl
  · left; rfl
  · left; rfl
  · left; rfl

end MBO

namespace MBO

theorem get_dynamic_thresholds_min_visible (d : Detector) :
    10 ≤ d.get_dynamic_thresholds.min_visible_size := by
  unfold Detector.get_dynamic_thresholds
  exact le_max_right _ _

theorem process_new_order_negative_not_tracked (d : Detector) (oid : Nat) (b : Bool)
    (p sz : ℚ) (tid : Option Nat) (ts : ℚ)
    (h : (if 0 < d.size_multiplier then sz / d.size_multiplier else sz) < 0) :
    (d.process_new_order oid b p sz tid ts).active_orders = d.active_orders ∧
    (d.process_new_order oid b p sz tid ts).orders_by_price = d.orders_by_price ∧
    (d.process_new_order oid b p sz tid ts).notifications = d.notifications := by
  have key : ∀ dm : Detector,
      ¬ (dm.get_dynamic_thresholds.min_visible_size ≤
        (if 0 < d.size_multiplier then sz / d.size_multiplier else sz)) := by
    intro dm hle
    have h10 := get_dynamic_thresholds_min_visible dm
    linarith
  unfold Detector.process_new_order
  rw [if_neg (key _)]
  exact ⟨rfl, rfl, rfl⟩

/-- C8 counterexample: a negative-size execution event (size -5) against the
tracked order 1 is not rejected: it is applied, changing the tracked order's
state and decreasing `total_filled` from 0 to -5. -/
theorem c8_counterexample :
    ((c8Detector.lookupOrder 1).map IcebergOrder.total_filled) = some 0 ∧
    ((c8After.lookupOrder 1).map IcebergOrder.total_filled) = some (-5) ∧
    ((c8After.lookupOrder 1).map IcebergOrder.total_filled) ≠
      ((c8Detector.lookupOrder 1).map IcebergOrder.total_filled) := by
  refine ⟨by with_unfolding_all rfl, by with_unfolding_all rfl, ?_⟩
  rw [show ((c8After.lookupOrder 1).map IcebergOrder.total_filled) = some (-5) from
      by with_unfolding_all rfl,
    show ((c8Detector.lookupOrder 1).map IcebergOrder.total_filled) = some 0 from
      by with_unfolding_all rfl]
  simp only [ne_eq, Option.some.injEq]
  norm_num

/-- C8 (amended): negative-size events are not rejected at the boundary.  A
negative-size execution for a tracked order is applied as a fill, strictly
decreasing `total_filled` (so `total_filled` is not non-decreasing); only a
negative-size new order is kept out of order tracking, because the admission
gate `min_visible_size ≥ 10` already exceeds any negative size (its size is
still recorded into the market metrics, and no warning is modelled because
none is logged). -/
theorem c8_negative_size_events_not_rejected :
    (∀ (d : Detector) (oid : Nat) (sz ts : ℚ) (o : IcebergOrder),
      d.lookupOrder oid = some o → o.order_id = oid → sz < 0 →
      ∃ o', (d.process_order_execution oid sz ts).lookupOrder oid = some o' ∧
        o'.total_filled = o.total_filled + sz ∧ o'.total_filled < o.total_filled) ∧
    (∀ (d : Detector) (oid : Nat) (b : Bool) (p sz : ℚ) (tid : Option Nat) (ts : ℚ),
      (if 0 < d.size_multiplier then sz / d.size_multiplier else sz) < 0 →
      (d.process_new_order oid b p sz tid ts).active_orders = d.active_orders ∧
      (d.process_new_order oid b p sz tid ts).notifications = d.notifications) := by
  constructor
  · intro d oid sz ts o h hid hneg
    rcases process_order_execution_cases d oid sz ts o h hid with hc | ⟨_, _, _, hc⟩
    · refine ⟨o.add_execution sz ts, ?_, by simp, by simp; linarith⟩
      rw [hc]
      simp
    · refine ⟨{ o.add_execution sz ts with
        last_reported_filled := (o.add_execution sz ts).total_filled }, ?_, by simp, ?_⟩
      · rw [hc]
        simp
      · simp only [add_execution_total_filled]
        linarith
  · intro d oid b p sz tid ts h
    obtain ⟨h1, _, h3⟩ := process_new_order_negative_not_tracked d oid b p sz tid ts h
    exact ⟨h1, h3⟩

/-- Witness for C8's amended theorem: the concrete negative-size execution of
-5 against the tracked order of `c8Detector`. -/
theorem c8_witness :
    ∃ o', (c8Detector.process_order_execution 1 (-5) 2).lookupOrder 1 = some o' ∧
      o'.total_filled = (IcebergOrder.init 1 100 50 true 1 none).total_filled + (-5) ∧
      o'.total_filled < (IcebergOrder.init 1 100 50 true 1 none).total_filled :=
  c8_negative_size_events_not_rejected.1 c8Detector 1 (-5) 2
    (IcebergOrder.init 1 100 50 true 1 none)
    (by with_unfolding_all rfl) (by with_unfolding_all rfl) (by norm_num)

end MBO

namespace MBO

theorem process_order_execution_lookup (d : Detector) (oid : Nat) (sz ts : ℚ)
    (o : IcebergOrder) (h : d.lookupOrder oid = some o) (hid : o.order_id = oid) :
    ∃ o', (d.process_order_execution oid sz ts).lookupOrder oid = some o' ∧
      o'.total_filled = o.total_filled + sz ∧
      o'.current_size = o.current_size ∧
      o'.order_id = o.order_id ∧
      o'.is_bid = o.is_bid ∧
      o'.is_confirmed_iceberg = o.is_confirmed_iceberg := by
  rcases process_order_execution_cases d oid sz ts o h hid with hc | ⟨_, _, _, hc⟩
  · rw [hc]
    exact ⟨o.add_execution sz ts, by simp, by simp, by simp, by simp, by simp, by simp⟩
  · rw [hc]
    refine ⟨{ o.add_execution sz ts with
      last_reported_filled := (o.add_execution sz ts).total_filled },
      by simp, by simp, by simp, by simp, by simp, by simp⟩

theorem add_trade_eq_match (d : Detector) (price size : ℚ) (b : Bool) (now : ℚ) :
    ∃ dm : Detector,
      d.add_trade price size b now = dm.match_trade_to_orders_v2 ⟨now, price, size, b⟩ ∧
      dm.active_orders = d.active_orders ∧
      dm.orders_by_price = d.orders_by_price ∧
      dm.notifications = d.notifications ∧
      dm.alert_execution_ratio_threshold = d.alert_execution_ratio_threshold ∧
      dm.alert_total_filled_threshold = d.alert_total_filled_threshold ∧
      dm.execution_threshold = d.execution_threshold := by
  unfold Detector.add_trade
  refine ⟨_, rfl, ?_, ?_, ?_, ?_, ?_, ?_⟩ <;> (dsimp only; split <;> rfl)

theorem match_trade_singleton (d : Detector) (t : Trade) (pid : Nat) (o : IcebergOrder)
    (hprice : lookupA d.orders_by_price t.price = some [pid])
    (hlook : d.lookupOrder pid = some o)
    (hside : o.is_bid ≠ t.is_bid)
    (hpos : 0 < min t.size o.current_size) :
    d.match_trade_to_orders_v2 t =
      d.process_order_execution o.order_id (min t.size o.current_size) t.timestamp := by
  unfold Detector.match_trade_to_orders_v2
  rw [hprice]
  simp only [List.filterMap_cons, List.filterMap_nil, hlook, if_pos hside,
    List.length_cons, List.length_nil, Nat.cast_one, Nat.cast_zero, zero_add, div_one,
    List.foldl_cons, List.foldl_nil]
  rw [if_neg (by simp), if_pos hpos]

/-- C1 counterexample: detector with one tracked ask of size 50 at price
100; a buyer-initiated trade of (normalized) size 10 at 100 arrives carrying
`passive_order_id = 1`.  The claim predicts `total_filled` rises by exactly
10; the code applies both the even-split heuristic fill (10) and the direct
fill (10), ending at 20. -/
theorem c1_counterexample :
    ((c1Detector.lookupOrder 1).map IcebergOrder.total_filled) = some 0 ∧
    ((c1After.lookupOrder 1).map IcebergOrder.total_filled) = some 20 ∧
    ¬ ((c1After.lookupOrder 1).map IcebergOrder.total_filled) = some (0 + 10) := by
  refine ⟨by with_unfolding_all rfl, by with_unfolding_all rfl, ?_⟩
  rw [show ((c1After.lookupOrder 1).map IcebergOrder.total_filled) = some 20 from
    by with_unfolding_all rfl]
  simp only [Option.some.injEq]
  norm_num

/-- C1 (amended): a trade event carrying a tracked passive order id does
apply the fill to that order directly, but the even-split trade-matching
heuristic is not bypassed: when the identified order also rests at the trade
price on the opposite side with positive remaining size (here as the sole
match), `total_filled` increases by the normalized trade size plus the
heuristic allocation `min(size, current_size)` — twice the size when
`current_size ≥ size` — not by the size once. -/
theorem c1_direct_fill_plus_heuristic_fill (d : Detector) (pid : Nat)
    (price sz ts s' : ℚ) (b : Bool) (o : IcebergOrder)
    (hs' : s' = if 0 < d.size_multiplier then sz / d.size_multiplier else sz)
    (hlook : d.lookupOrder pid = some o)
    (hid : o.order_id = pid)
    (hpid : pid ≠ 0)
    (hprice : lookupA d.orders_by_price price = some [pid])
    (hside : o.is_bid ≠ b)
    (hcs : 0 < o.current_size)
    (hsz : 0 < s') :
    ∃ o', (d.handle_trades price sz b none (some pid) ts).lookupOrder pid = some o' ∧
      o'.total_filled = o.total_filled + min s' o.current_size + s' := by
  unfold Detector.handle_trades
  rw [← hs']
  dsimp only
  obtain ⟨dm, hm, hao, hobp, _, _, _, _⟩ := add_trade_eq_match d price s' b ts
  rw [hm]
  have hlookm : dm.lookupOrder pid = some o := by
    unfold Detector.lookupOrder at hlook ⊢
    rw [hao]
    exact hlook
  have hmt := match_trade_singleton dm ⟨ts, price, s', b⟩ pid o
    (by rw [hobp]; exact hprice) hlookm hside (lt_min hsz hcs)
  rw [hid] at hmt
  rw [hmt]
  obtain ⟨o₁, h1look, h1tf, h1cs, h1id, h1b, h1c⟩ :=
    process_order_execution_lookup dm pid (min s' o.current_size) ts o hlookm hid
  rw [if_pos ⟨hpid, by rw [h1look]; exact rfl⟩]
  obtain ⟨o₂, h2look, h2tf, _, _, _, _⟩ :=
    process_order_execution_lookup _ pid s' ts o₁ h1look (h1id.trans hid)
  exact ⟨o₂, h2look, by rw [h2tf, h1tf]⟩

/-- Witness for C1's amended theorem at the concrete scenario of
`c1Detector`: the tracked order's `total_filled` ends at
`0 + min 10 50 + 10 = 20`. -/
theorem c1_witness :
    ∃ o', (c1Detector.handle_trades 100 10 true none (some 1) 10).lookupOrder 1 = some o' ∧
      o'.total_filled = (IcebergOrder.init 1 100 50 false 1 none).total_filled +
        min 10 (IcebergOrder.init 1 100 50 false 1 none).current_size + 10 :=
  c1_direct_fill_plus_heuristic_fill c1Detector 1 100 10 10 10 true
    (IcebergOrder.init 1 100 50 false 1 none)
    (by with_unfolding_all rfl)
    (by with_unfolding_all rfl)
    rfl
    (by norm_num)
    (by with_unfolding_all rfl)
    (by simp [IcebergOrder.init])
    (by norm_num [IcebergOrder.init])
    (by norm_num)

end MBO

namespace MBO

@[simp] theorem detCount_nil (i : Nat) : detCount [] i = 0 := rfl

theorem detCount_append (l1 l2 : List Notif) (i : Nat) :
    detCount (l1 ++ l2) i = detCount l1 i + detCount l2 i := by
  simp [detCount, List.filter_append]

@[simp] theorem detCount_progress (i n : Nat) : detCount [⟨.progress, n⟩] i = 0 := by
  simp [detCount, List.filter, isDetectionFor]

@[simp] theorem detCount_completion (i n : Nat) : detCount [⟨.completion, n⟩] i = 0 := by
  simp [detCount, List.filter, isDetectionFor]

theorem detCount_detection (i n : Nat) :
    detCount [⟨.detection, n⟩] i = if n = i then 1 else 0 := by
  by_cases h : n = i <;> simp [detCount, List.filter, isDetectionFor, h]

@[simp] theorem hasDetection_nil (i : Nat) : hasDetection i [] = false := rfl

theorem hasDetection_append (i : Nat) (l1 l2 : List Notif) :
    hasDetection i (l1 ++ l2) = (hasDetection i l1 || hasDetection i l2) := by
  simp [hasDetection, List.any_append]

@[simp] theorem hasDetection_detection_self (i : Nat) :
    hasDetection i [⟨.detection, i⟩] = true := by
  simp [hasDetection, isDetectionFor]

theorem progressOkFrom_append (i : Nat) (seen : Bool) (l1 l2 : List Notif) :
    progressOkFrom i seen (l1 ++ l2) =
      (progressOkFrom i seen l1 && progressOkFrom i (seen || hasDetection i l1) l2) := by
  induction l1 generalizing seen with
  | nil => simp [progressOkFrom, hasDetection]
  | cons n l1 ih =>
    simp only [List.cons_append, progressOkFrom]
    by_cases hbad : (isProgressFor i n && !seen) = true
    · simp [hbad]
    · rw [if_neg hbad, if_neg hbad]
      simp only [List.append_eq]
      rw [ih]
      have hs : ((seen || isDetectionFor i n) || hasDetection i l1) =
          (seen || hasDetection i (n :: l1)) := by
        simp [hasDetection, List.any_cons, Bool.or_assoc]
      rw [hs]

theorem progressOkFrom_detection (i : Nat) (seen : Bool) (j : Nat) :
    progressOkFrom i seen [⟨.detection, j⟩] = true := by
  simp [progressOkFrom, isProgressFor]

theorem progressOkFrom_completion (i : Nat) (seen : Bool) (j : Nat) :
    progressOkFrom i seen [⟨.completion, j⟩] = true := by
  simp [progressOkFrom, isProgressFor]

theorem progressOkFrom_progress (i : Nat) (seen : Bool) (j : Nat) :
    progressOkFrom i seen [⟨.progress, j⟩] = (if j = i then seen else true) := by
  by_cases h : j = i <;> cases seen <;> simp [progressOkFrom, isProgressFor, h]

end MBO

namespace MBO

@[simp] theorem confirm_iceberg_snd (d : Detector) (o : IcebergOrder) (now : ℚ) :
    (d.confirm_iceberg o now).2 =
      { o with
        is_confirmed_iceberg := true,
        iceberg_start_time := some now,
        last_reported_filled := o.total_filled } := rfl

theorem confirm_iceberg_fst_notifications (d : Detector) (o : IcebergOrder) (now : ℚ) :
    (d.confirm_iceberg o now).1.notifications =
      d.notifications ++ [⟨.detection, o.order_id⟩] := rfl

theorem confirm_iceberg_fst_lookup (d : Detector) (o : IcebergOrder) (now : ℚ) (i : Nat) :
    (d.confirm_iceberg o now).1.lookupOrder i =
      if i = o.order_id then
        some { o with
          is_confirmed_iceberg := true,
          iceberg_start_time := some now,
          last_reported_filled := o.total_filled }
      else d.lookupOrder i := by
  unfold Detector.confirm_iceberg
  dsimp only
  unfold Detector.lookupOrder Detector.push Detector.setOrder
  dsimp only
  rw [lookupA_setA]

theorem confirmStep_eq_or (now : ℚ) (cond : IcebergOrder → Bool)
    (s : Detector × IcebergOrder) :
    Detector.confirmStep now cond s = s ∨
      (cond s.2 = true ∧ Detector.confirmStep now cond s = s.1.confirm_iceberg s.2 now) := by
  unfold Detector.confirmStep
  split
  · next h => exact Or.inr ⟨h, rfl⟩
  · exact Or.inl rfl

theorem confirmChain_cases (now : ℚ) (conds : List (IcebergOrder → Bool))
    (d : Detector) (order : IcebergOrder)
    (hconds : ∀ c ∈ conds, ∀ o, c o = true → o.is_confirmed_iceberg = false) :
    confirmChain now conds (d, order) = (d, order) ∨
      (order.is_confirmed_iceberg = false ∧
        confirmChain now conds (d, order) = d.confirm_iceberg order now) := by
  suffices h : ∀ (s : Detector × IcebergOrder),
      (s = (d, order) ∨ (order.is_confirmed_iceberg = false ∧ s = d.confirm_iceberg order now)) →
      (confirmChain now conds s = (d, order) ∨
        (order.is_confirmed_iceberg = false ∧
          confirmChain now conds s = d.confirm_iceberg order now)) by
    exact h (d, order) (Or.inl rfl)
  induction conds with
  | nil => intro s hs; simpa [confirmChain] using hs
  | cons c conds ih =>
    intro s hs
    have hc1 : ∀ o, c o = true → o.is_confirmed_iceberg = false :=
      hconds c (List.mem_cons_self _ _)
    have hrest : ∀ c' ∈ conds, ∀ o, c' o = true → o.is_confirmed_iceberg = false :=
      fun c' hc' => hconds c' (List.mem_cons_of_mem _ hc')
    have hnext : Detector.confirmStep now c s = (d, order) ∨
        (order.is_confirmed_iceberg = false ∧
          Detector.confirmStep now c s = d.confirm_iceberg order now) := by
      rcases hs with rfl | ⟨hunconf, rfl⟩
      · rcases confirmStep_eq_or now c (d, order) with h | ⟨hcond, h⟩
        · exact Or.inl h
        · exact Or.inr ⟨hc1 _ hcond, h⟩
      · rcases confirmStep_eq_or now c (d.confirm_iceberg order now) with h | ⟨hcond, h⟩
        · exact Or.inr ⟨hunconf, h⟩
        · exfalso
          have hfalse := hc1 _ hcond
          rw [confirm_iceberg_snd] at hfalse
          simp at hfalse
    have := ih hrest (Detector.confirmStep now c s) hnext
    simpa [confirmChain, List.foldl_cons] using this

theorem analyze_cases (d : Detector) (order : IcebergOrder) (now : ℚ) :
    d.analyze_iceberg_pattern_percentage order now = d ∨
      (order.is_confirmed_iceberg = false ∧
        d.analyze_iceberg_pattern_percentage order now = (d.confirm_iceberg order now).1) := by
  unfold Detector.analyze_iceberg_pattern_percentage
  dsimp only
  split
  · exact Or.inl rfl
  · have h := confirmChain_cases now
      [fun o => decide (1 ≤ o.refill_count ∧ o.is_confirmed_iceberg = false ∧
         2/5 ≤ order.get_iceberg_score),
       fun o => decide (d.alert_execution_ratio_threshold ≤ order.get_execution_ratio ∧
         o.min_size_seen * (4/5) ≤ o.current_size ∧ o.is_confirmed_iceberg = false),
       fun o => decide (d.alert_total_filled_threshold ≤ o.total_filled ∧
         2 ≤ o.size_decrease_count ∧ o.is_confirmed_iceberg = false),
       fun o => decide (d.alert_total_filled_threshold ≤ o.total_filled ∧
         3 ≤ o.size_decrease_count ∧ o.is_confirmed_iceberg = false),
       fun o => decide (d.alert_execution_ratio_threshold ≤ order.get_execution_ratio ∧
         o.initial_size * (3/5) ≤ o.current_size ∧ o.is_confirmed_iceberg = false)]
      d order ?_
    · rcases h with h | ⟨hunconf, h⟩
      · exact Or.inl (by rw [h])
      · exact Or.inr ⟨hunconf, by rw [h]⟩
    · intro c hc o h
      simp only [List.mem_cons, List.mem_singleton, List.not_mem_nil, or_false] at hc
      rcases hc with rfl | rfl | rfl | rfl | rfl <;>
        · simp only [decide_eq_true_eq] at h
          tauto

end MBO

namespace MBO

theorem progressOkFrom_true_seen (i : Nat) (l : List Notif) :
    progressOkFrom i true l = true := by
  induction l with
  | nil => rfl
  | cons n rest ih =>
    unfold progressOkFrom
    rw [Bool.not_true, Bool.and_false]
    simp only [Bool.false_eq_true, if_false, Bool.true_or]
    exact ih

theorem progressOkFrom_of_no_progress (i : Nat) (l : List Notif)
    (h : ∀ n ∈ l, isProgressFor i n = false) :
    ∀ seen, progressOkFrom i seen l = true := by
  induction l with
  | nil => intro seen; rfl
  | cons n rest ih =>
    intro seen
    have hn := h n (List.mem_cons_self _ _)
    unfold progressOkFrom
    rw [hn, Bool.false_and]
    simp only [Bool.false_eq_true, if_false]
    exact ih (fun m hm => h m (List.mem_cons_of_mem _ hm)) _

theorem detCount_zero_of_no_detection (l : List Notif) (i : Nat)
    (h : ∀ n ∈ l, n.kind ≠ NotifKind.detection) : detCount l i = 0 := by
  induction l with
  | nil => rfl
  | cons n rest ih =>
    have hn : isDetectionFor i n = false := by
      unfold isDetectionFor
      simp only [decide_eq_false_iff_not, not_and]
      intro hc
      exact absurd hc (h n (List.mem_cons_self _ _))
    unfold detCount
    rw [List.filter_cons, if_neg (by simp [hn])]
    exact ih (fun m hm => h m (List.mem_cons_of_mem _ hm))

theorem lookupOrder_congr (d d' : Detector) (ha : d'.active_orders = d.active_orders)
    (i : Nat) : d'.lookupOrder i = d.lookupOrder i := by
  unfold Detector.lookupOrder
  rw [ha]

theorem keyWF_congr (d d' : Detector) (ha : d'.active_orders = d.active_orders)
    (hwf : d.KeyWF) : d'.KeyWF := by
  intro k o h
  rw [lookupOrder_congr d d' ha] at h
  exact hwf k o h

theorem keyWF_setOrder (d : Detector) (oid : Nat) (o : IcebergOrder)
    (hwf : d.KeyWF) (hid : o.order_id = oid) : (d.setOrder oid o).KeyWF := by
  intro k o' h
  rw [lookupOrder_setOrder] at h
  by_cases hk : k = oid
  · rw [if_pos hk] at h
    obtain rfl := Option.some.inj h
    rw [hid, hk]
  · rw [if_neg hk] at h
    exact hwf k o' h

theorem keyWF_of_subset (d d' : Detector) (hwf : d.KeyWF)
    (h : ∀ i, d'.lookupOrder i = d.lookupOrder i ∨ d'.lookupOrder i = none) :
    d'.KeyWF := by
  intro k o hk
  rcases h k with he | he
  · rw [he] at hk
    exact hwf k o hk
  · rw [he] at hk
    cases hk

theorem tameStep_refl (d : Detector) (i : Nat) : Detector.TameStep d d i := by
  constructor
  · exact ⟨[], (List.append_nil _).symm, by simp, by simp⟩
  · intro o' h
    exact ⟨o', h, rfl⟩

theorem tameStep_trans (d1 d2 d3 : Detector) (i : Nat)
    (h12 : Detector.TameStep d1 d2 i) (h23 : Detector.TameStep d2 d3 i) :
    Detector.TameStep d1 d3 i := by
  obtain ⟨⟨a, ha, hak, hap⟩, hf12⟩ := h12
  obtain ⟨⟨b, hb, hbk, hbp⟩, hf23⟩ := h23
  constructor
  · refine ⟨a ++ b, ?_, ?_, ?_⟩
    · rw [hb, ha, List.append_assoc]
    · intro n hn
      rcases List.mem_append.mp hn with h | h
      · exact hak n h
      · exact hbk n h
    · intro n hn hk ho
      rcases List.mem_append.mp hn with h | h
      · exact hap n h hk ho
      · obtain ⟨o2, ho2, hc2⟩ := hbp n h hk ho
        obtain ⟨o1, ho1, hc1⟩ := hf12 o2 ho2
        exact ⟨o1, ho1, by rw [hc1, hc2]⟩
  · intro o' h
    obtain ⟨o2, ho2, hc2⟩ := hf23 o' h
    obtain ⟨o1, ho1, hc1⟩ := hf12 o2 ho2
    exact ⟨o1, ho1, by rw [hc1, hc2]⟩

theorem tameStep_of_proj (d d' : Detector) (ha : d'.active_orders = d.active_orders)
    (hn : d'.notifications = d.notifications) (i : Nat) : Detector.TameStep d d' i := by
  constructor
  · exact ⟨[], by rw [hn, List.append_nil], by simp, by simp⟩
  · intro o' h
    rw [lookupOrder_congr d d' ha] at h
    exact ⟨o', h, rfl⟩

theorem trackMono_refl (d : Detector) (i : Nat) : d.TrackMono d i :=
  fun o' h => ⟨o', h, fun hc => hc⟩

theorem trackMono_trans (d1 d2 d3 : Detector) (i : Nat)
    (h12 : d1.TrackMono d2 i) (h23 : d2.TrackMono d3 i) : d1.TrackMono d3 i := by
  intro o' h
  obtain ⟨o2, ho2, hc2⟩ := h23 o' h
  obtain ⟨o1, ho1, hc1⟩ := h12 o2 ho2
  exact ⟨o1, ho1, fun hc => hc2 (hc1 hc)⟩

theorem flagMono_of_trackMono (d d' : Detector) (i : Nat)
    (h : d.TrackMono d' i) : d.FlagMono d' i := by
  intro o o' ho hc ho'
  obtain ⟨o0, ho0, hc0⟩ := h o' ho'
  rw [ho] at ho0
  obtain rfl := Option.some.inj ho0
  exact hc0 hc

theorem tameStep_facts (d d' : Detector) (i : Nat) (h : Detector.TameStep d d' i) :
    d.TrackMono d' i ∧
    (d.LifecycleInv i → d'.LifecycleInv i) ∧
    (d.DetectionBudget i → d'.DetectionBudget i) ∧
    (d.NeverTracked i → d'.NeverTracked i) := by
  obtain ⟨⟨xs, hxs, hknd, hprg⟩, hflag⟩ := h
  refine ⟨?_, ?_, ?_, ?_⟩
  · intro o' ho'
    obtain ⟨o, ho, hc⟩ := hflag o' ho'
    exact ⟨o, ho, fun h1 => by rw [← hc]; exact h1⟩
  · rintro ⟨hconf, hok⟩
    constructor
    · intro o' ho' hc'
      obtain ⟨o, ho, heq⟩ := hflag o' ho'
      have hoc : o.is_confirmed_iceberg = true := by rw [heq]; exact hc'
      have hd := hconf o ho hoc
      rw [hxs, hasDetection_append, hd, Bool.true_or]
    · rw [hxs, progressOkFrom_append, hok, Bool.true_and]
      cases hseen : hasDetection i d.notifications with
      | true =>
        rw [Bool.false_or]
        exact progressOkFrom_true_seen i xs
      | false =>
        rw [Bool.false_or]
        apply progressOkFrom_of_no_progress
        intro n hn
        cases hp : isProgressFor i n with
        | false => rfl
        | true =>
          exfalso
          unfold isProgressFor at hp
          rw [decide_eq_true_eq] at hp
          obtain ⟨o, ho, hc⟩ := hprg n hn hp.1 hp.2
          have := hconf o ho hc
          rw [this] at hseen
          cases hseen
  · rintro ⟨hle, hzero⟩
    have hxcount : detCount xs i = 0 :=
      detCount_zero_of_no_detection xs i hknd
    constructor
    · rw [hxs, detCount_append, hxcount]
      simpa using hle
    · intro o' ho' hc'
      obtain ⟨o, ho, heq⟩ := hflag o' ho'
      have hof : o.is_confirmed_iceberg = false := by rw [heq]; exact hc'
      rw [hxs, detCount_append, hxcount, hzero o ho hof]
  · rintro ⟨hn, hz⟩
    constructor
    · cases hh : d'.lookupOrder i with
      | none => rfl
      | some o' =>
        obtain ⟨o, ho, _⟩ := hflag _ hh
        rw [hn] at ho
        cases ho
    · rw [hxs, detCount_append, hz, detCount_zero_of_no_detection xs i hknd]

end MBO

namespace MBO

theorem process_order_execution_tame (d : Detector) (oid : Nat) (sz ts : ℚ)
    (hwf : d.KeyWF) :
    (d.process_order_execution oid sz ts).KeyWF ∧
    ∀ i, Detector.TameStep d (d.process_order_execution oid sz ts) i := by
  cases hl : d.lookupOrder oid with
  | none =>
    have he : d.process_order_execution oid sz ts = d := by
      unfold Detector.process_order_execution
      rw [hl]
    rw [he]
    exact ⟨hwf, fun i => tameStep_refl d i⟩
  | some o =>
    have hid : o.order_id = oid := hwf oid o hl
    rcases process_order_execution_cases d oid sz ts o hl hid with hc | ⟨hconf, _, _, hc⟩
    · rw [hc]
      refine ⟨keyWF_setOrder d oid _ hwf (by rw [add_execution_order_id, hid]), ?_⟩
      intro i
      constructor
      · exact ⟨[], by rw [setOrder_notifications, List.append_nil], by simp, by simp⟩
      · intro o' ho'
        rw [lookupOrder_setOrder] at ho'
        by_cases hio : i = oid
        · rw [if_pos hio] at ho'
          obtain rfl := Option.some.inj ho'
          subst hio
          refine ⟨o, hl, ?_⟩
          rw [add_execution_is_confirmed]
        · rw [if_neg hio] at ho'
          exact ⟨o', ho', rfl⟩
    · rw [hc]
      have hwf1 : (d.setOrder oid (o.add_execution sz ts)).KeyWF :=
        keyWF_setOrder d oid _ hwf (by rw [add_execution_order_id, hid])
      have hwf2 : ((d.setOrder oid (o.add_execution sz ts)).push .progress oid).KeyWF :=
        keyWF_congr _ _ rfl hwf1
      refine ⟨keyWF_setOrder _ oid _ hwf2 ?_, ?_⟩
      · dsimp only
        rw [add_execution_order_id]
        exact hid
      intro i
      constructor
      · refine ⟨[⟨.progress, oid⟩], ?_, ?_, ?_⟩
        · rw [setOrder_notifications, push_notifications, setOrder_notifications]
        · intro n hn
          rw [List.mem_singleton] at hn
          subst hn
          simp
        · intro n hn hk hi
          rw [List.mem_singleton] at hn
          subst hn
          have hoi : oid = i := hi
          subst hoi
          exact ⟨o, hl, hconf⟩
      · intro o' ho'
        rw [lookupOrder_setOrder] at ho'
        by_cases hio : i = oid
        · rw [if_pos hio] at ho'
          obtain rfl := Option.some.inj ho'
          subst hio
          refine ⟨o, hl, ?_⟩
          dsimp only
          rw [add_execution_is_confirmed]
        · rw [if_neg hio] at ho'
          rw [lookupOrder_push, lookupOrder_setOrder, if_neg hio] at ho'
          exact ⟨o', ho', rfl⟩

theorem foldl_tame {β : Type} (f : Detector → β → Detector)
    (hf : ∀ dd b, dd.KeyWF → (f dd b).KeyWF ∧ ∀ i, Detector.TameStep dd (f dd b) i) :
    ∀ (l : List β) (d : Detector), d.KeyWF →
      (l.foldl f d).KeyWF ∧ ∀ i, Detector.TameStep d (l.foldl f d) i := by
  intro l
  induction l with
  | nil => intro d hwf; exact ⟨hwf, fun i => tameStep_refl d i⟩
  | cons b l ih =>
    intro d hwf
    obtain ⟨hwf1, ht1⟩ := hf d b hwf
    obtain ⟨hwf2, ht2⟩ := ih (f d b) hwf1
    rw [List.foldl_cons]
    exact ⟨hwf2, fun i => tameStep_trans _ _ _ i (ht1 i) (ht2 i)⟩

theorem foldl_removeOrderAt_proj (oid : Nat) (l : List ℚ) : ∀ d : Detector,
    ((l.foldl (fun d p =>
      { d with orders_by_price := removeOrderAt d.orders_by_price p oid }) d)).active_orders
        = d.active_orders ∧
    ((l.foldl (fun d p =>
      { d with orders_by_price := removeOrderAt d.orders_by_price p oid }) d)).notifications
        = d.notifications := by
  induction l with
  | nil => intro d; exact ⟨rfl, rfl⟩
  | cons p l ih =>
    intro d
    rw [List.foldl_cons]
    exact ih _

theorem cleanup_order_spec (d : Detector) (oid : Nat) :
    (d.cleanup_order oid).notifications = d.notifications ∧
    ∀ i, (d.cleanup_order oid).lookupOrder i =
      if i = oid then none else d.lookupOrder i := by
  cases hl : d.lookupOrder oid with
  | none =>
    have he : d.cleanup_order oid = { d with potential_icebergs := d.potential_icebergs.erase oid, confirmed_icebergs := d.confirmed_icebergs.erase oid } := by
      unfold Detector.cleanup_order
      rw [hl]
    rw [he]
    refine ⟨rfl, fun i => ?_⟩
    by_cases hio : i = oid
    · rw [if_pos hio, hio]
      exact hl
    · rw [if_neg hio]
      rfl
  | some o =>
    obtain ⟨hact, hnot⟩ := foldl_removeOrderAt_proj oid o.price_history d
    have hact2 : (d.cleanup_order oid).active_orders = removeA (o.price_history.foldl (fun d p => { d with orders_by_price := removeOrderAt d.orders_by_price p oid }) d).active_orders oid := by
      unfold Detector.cleanup_order
      rw [hl]
    have hnot2 : (d.cleanup_order oid).notifications = (o.price_history.foldl (fun d p => { d with orders_by_price := removeOrderAt d.orders_by_price p oid }) d).notifications := by
      unfold Detector.cleanup_order
      rw [hl]
    refine ⟨by rw [hnot2]; exact hnot, fun i => ?_⟩
    unfold Detector.lookupOrder
    rw [hact2, lookupA_removeA, hact]

theorem cleanup_order_tame (d : Detector) (oid : Nat) (hwf : d.KeyWF) :
    (d.cleanup_order oid).KeyWF ∧ ∀ i, Detector.TameStep d (d.cleanup_order oid) i := by
  obtain ⟨hnot, hlk⟩ := cleanup_order_spec d oid
  constructor
  · refine keyWF_of_subset d _ hwf (fun i => ?_)
    rw [hlk i]
    by_cases hio : i = oid
    · rw [if_pos hio]
      exact Or.inr rfl
    · rw [if_neg hio]
      exact Or.inl rfl
  · intro i
    constructor
    · exact ⟨[], by rw [hnot, List.append_nil], by simp, by simp⟩
    · intro o' ho'
      rw [hlk i] at ho'
      by_cases hio : i = oid
      · rw [if_pos hio] at ho'
        cases ho'
      · rw [if_neg hio] at ho'
        exact ⟨o', ho', rfl⟩

theorem cleanup_old_orders_tame (d : Detector) (now : ℚ) (hwf : d.KeyWF) :
    (d.cleanup_old_orders now).KeyWF ∧
    ∀ i, Detector.TameStep d (d.cleanup_old_orders now) i := by
  unfold Detector.cleanup_old_orders
  dsimp only
  exact foldl_tame _ (fun dd oid hwfd => cleanup_order_tame dd oid hwfd) _ d hwf

theorem update_depth_proj (d : Detector) (b : Bool) (p s : ℚ) :
    (d.update_depth b p s).active_orders = d.active_orders ∧
    (d.update_depth b p s).notifications = d.notifications := by
  unfold Detector.update_depth
  dsimp only
  split_ifs <;> exact ⟨rfl, rfl⟩

theorem update_depth_tame (d : Detector) (b : Bool) (p s : ℚ) (hwf : d.KeyWF) :
    (d.update_depth b p s).KeyWF ∧ ∀ i, Detector.TameStep d (d.update_depth b p s) i := by
  obtain ⟨ha, hn⟩ := update_depth_proj d b p s
  exact ⟨keyWF_congr d _ ha hwf, fun i => tameStep_of_proj d _ ha hn i⟩

theorem match_trade_tame (d : Detector) (t : Trade) (hwf : d.KeyWF) :
    (d.match_trade_to_orders_v2 t).KeyWF ∧
    ∀ i, Detector.TameStep d (d.match_trade_to_orders_v2 t) i := by
  unfold Detector.match_trade_to_orders_v2
  cases h : lookupA d.orders_by_price t.price with
  | none => exact ⟨hwf, fun i => tameStep_refl d i⟩
  | some ids =>
    dsimp only
    split
    · exact ⟨hwf, fun i => tameStep_refl d i⟩
    · refine foldl_tame _ ?_ _ d hwf
      intro dd o hwfd
      dsimp only
      split
      · exact process_order_execution_tame dd o.order_id _ t.timestamp hwfd
      · exact ⟨hwfd, fun i => tameStep_refl dd i⟩

theorem add_trade_tame (d : Detector) (p sz : ℚ) (b : Bool) (now : ℚ) (hwf : d.KeyWF) :
    (d.add_trade p sz b now).KeyWF ∧
    ∀ i, Detector.TameStep d (d.add_trade p sz b now) i := by
  obtain ⟨dm, heq, hact, _, hnot, _, _, _⟩ := add_trade_eq_match d p sz b now
  rw [heq]
  have hwfm : dm.KeyWF := keyWF_congr d dm hact hwf
  obtain ⟨hwfr, htr⟩ := match_trade_tame dm ⟨now, p, sz, b⟩ hwfm
  exact ⟨hwfr, fun i =>
    tameStep_trans d dm _ i (tameStep_of_proj d dm hact hnot i) (htr i)⟩

end MBO

namespace MBO

theorem optional_poe_tame (d : Detector) (opt : Option Nat) (sz now : ℚ) (hwf : d.KeyWF) :
    ((match opt with
      | some x =>
        if x ≠ 0 ∧ (d.lookupOrder x).isSome then d.process_order_execution x sz now else d
      | none => d) : Detector).KeyWF ∧
    ∀ i, Detector.TameStep d
      (match opt with
       | some x =>
         if x ≠ 0 ∧ (d.lookupOrder x).isSome then d.process_order_execution x sz now else d
       | none => d) i := by
  cases opt with
  | none => exact ⟨hwf, fun i => tameStep_refl d i⟩
  | some x =>
    dsimp only
    split
    · exact process_order_execution_tame d x sz now hwf
    · exact ⟨hwf, fun i => tameStep_refl d i⟩

theorem handle_trades_tame (d : Detector) (p sz : ℚ) (b : Bool)
    (aid pid : Option Nat) (now : ℚ) (hwf : d.KeyWF) :
    (d.handle_trades p sz b aid pid now).KeyWF ∧
    ∀ i, Detector.TameStep d (d.handle_trades p sz b aid pid now) i := by
  unfold Detector.handle_trades
  dsimp only
  obtain ⟨hwf1, ht1⟩ := add_trade_tame d p
    (if 0 < d.size_multiplier then sz / d.size_multiplier else sz) b now hwf
  obtain ⟨hwf2, ht2⟩ := optional_poe_tame
    (d.add_trade p (if 0 < d.size_multiplier then sz / d.size_multiplier else sz) b now) pid
    (if 0 < d.size_multiplier then sz / d.size_multiplier else sz) now hwf1
  obtain ⟨hwf3, ht3⟩ := optional_poe_tame _ aid
    (if 0 < d.size_multiplier then sz / d.size_multiplier else sz) now hwf2
  exact ⟨hwf3, fun i => tameStep_trans _ _ _ i
    (tameStep_trans _ _ _ i (ht1 i) (ht2 i)) (ht3 i)⟩

theorem process_new_order_spec (d : Detector) (oid : Nat) (b : Bool) (p sz : ℚ)
    (tid : Option Nat) (ts : ℚ) :
    (d.process_new_order oid b p sz tid ts).notifications = d.notifications ∧
    (∀ i, i ≠ oid →
      (d.process_new_order oid b p sz tid ts).lookupOrder i = d.lookupOrder i) ∧
    ((d.process_new_order oid b p sz tid ts).lookupOrder oid = d.lookupOrder oid ∨
      ∃ o, (d.process_new_order oid b p sz tid ts).lookupOrder oid = some o ∧
        o.order_id = oid ∧ o.is_confirmed_iceberg = false) := by
  unfold Detector.process_new_order
  dsimp only
  generalize (if 0 < d.size_multiplier then sz / d.size_multiplier else sz) = A
  split
  · split
    · refine ⟨rfl, fun i hne => ?_, Or.inr ⟨IcebergOrder.init oid p A b ts tid, ?_, rfl, rfl⟩⟩
      · unfold Detector.lookupOrder Detector.setOrder
        dsimp only
        rw [lookupA_setA, if_neg hne]
      · unfold Detector.lookupOrder Detector.setOrder
        dsimp only
        rw [lookupA_setA, if_pos rfl]
    · refine ⟨rfl, fun i hne => ?_, Or.inr ⟨IcebergOrder.init oid p A b ts tid, ?_, rfl, rfl⟩⟩
      · unfold Detector.lookupOrder Detector.setOrder
        dsimp only
        rw [lookupA_setA, if_neg hne]
      · unfold Detector.lookupOrder Detector.setOrder
        dsimp only
        rw [lookupA_setA, if_pos rfl]
  · exact ⟨rfl, fun i hne => rfl, Or.inl rfl⟩

theorem process_new_order_facts (d : Detector) (oid : Nat) (b : Bool) (p sz : ℚ)
    (tid : Option Nat) (ts : ℚ) (i : Nat) (hwf : d.KeyWF) :
    (d.process_new_order oid b p sz tid ts).KeyWF ∧
    (d.LifecycleInv i → (d.process_new_order oid b p sz tid ts).LifecycleInv i) ∧
    (i ≠ oid → d.DetectionBudget i →
      (d.process_new_order oid b p sz tid ts).DetectionBudget i) ∧
    (i ≠ oid → d.NeverTracked i → (d.process_new_order oid b p sz tid ts).NeverTracked i) ∧
    (d.NeverTracked i → (d.process_new_order oid b p sz tid ts).DetectionBudget i) ∧
    (i ≠ oid → d.TrackMono (d.process_new_order oid b p sz tid ts) i) := by
  obtain ⟨hnot, hother, hoid⟩ := process_new_order_spec d oid b p sz tid ts
  refine ⟨?_, ?_, ?_, ?_, ?_, ?_⟩
  · intro k o hk
    by_cases hko : k = oid
    · subst hko
      rcases hoid with he | ⟨o0, he, hid0, _⟩
      · rw [he] at hk
        exact hwf k o hk
      · rw [he] at hk
        obtain rfl := Option.some.inj hk
        exact hid0
    · rw [hother k hko] at hk
      exact hwf k o hk
  · intro hL
    obtain ⟨hconf, hok⟩ := hL
    constructor
    · intro o' ho' hc'
      rw [hnot]
      by_cases hio : i = oid
      · subst hio
        rcases hoid with he | ⟨o0, he, _, hflag0⟩
        · rw [he] at ho'
          exact hconf o' ho' hc'
        · rw [he] at ho'
          obtain rfl := Option.some.inj ho'
          rw [hflag0] at hc'
          cases hc'
      · rw [hother i hio] at ho'
        exact hconf o' ho' hc'
    · rw [hnot]
      exact hok
  · intro hio hB
    obtain ⟨hle, hz⟩ := hB
    constructor
    · rw [hnot]
      exact hle
    · intro o' ho' hc'
      rw [hnot]
      rw [hother i hio] at ho'
      exact hz o' ho' hc'
  · intro hio hN
    obtain ⟨hn, hz⟩ := hN
    exact ⟨by rw [hother i hio]; exact hn, by rw [hnot]; exact hz⟩
  · intro hN
    obtain ⟨hn, hz⟩ := hN
    refine ⟨by rw [hnot, hz]; exact Nat.zero_le 1, fun o' ho' hc' => by rw [hnot]; exact hz⟩
  · intro hio o' ho'
    rw [hother i hio] at ho'
    exact ⟨o', ho', fun hc => hc⟩

end MBO

namespace MBO

set_option maxHeartbeats 1000000 in
theorem process_replace_order_facts (d : Detector) (oid : Nat) (p sz ts : ℚ)
    (i : Nat) (hwf : d.KeyWF) :
    (d.process_replace_order oid p sz ts).KeyWF ∧
    (d.LifecycleInv i → (d.process_replace_order oid p sz ts).LifecycleInv i) ∧
    (d.DetectionBudget i → (d.process_replace_order oid p sz ts).DetectionBudget i) ∧
    (d.NeverTracked i → (d.process_replace_order oid p sz ts).NeverTracked i) ∧
    d.TrackMono (d.process_replace_order oid p sz ts) i := by
  cases hl : d.lookupOrder oid with
  | none =>
    have he : d.process_replace_order oid p sz ts = d := by
      unfold Detector.process_replace_order
      rw [hl]
    rw [he]
    exact ⟨hwf, id, id, id, trackMono_refl d i⟩
  | some order =>
    have hid : order.order_id = oid := hwf oid order hl
    have key : ∃ d1 : Detector, d1.active_orders = d.active_orders ∧
        d1.notifications = d.notifications ∧
        d.process_replace_order oid p sz ts =
          (d1.setOrder oid (order.add_replace_event
            (if 0 < d.size_multiplier then sz / d.size_multiplier else sz) ts
            (if p ≠ order.current_price then some p else none))
           ).analyze_iceberg_pattern_percentage
            (order.add_replace_event
              (if 0 < d.size_multiplier then sz / d.size_multiplier else sz) ts
              (if p ≠ order.current_price then some p else none)) ts := by
      unfold Detector.process_replace_order
      rw [hl]
      dsimp only
      by_cases hp : p ≠ order.current_price
      · simp only [if_pos hp]
        exact ⟨{ d with orders_by_price := appendAt (removeOrderAt d.orders_by_price order.current_price oid) p oid }, rfl, rfl, rfl⟩
      · simp only [if_neg hp]
        exact ⟨d, rfl, rfl, rfl⟩
    obtain ⟨d1, hact1, hnot1, he⟩ := key
    generalize hord : order.add_replace_event
      (if 0 < d.size_multiplier then sz / d.size_multiplier else sz) ts
      (if p ≠ order.current_price then some p else none) = ord at he
    have hido : ord.order_id = oid := by
      rw [← hord, add_replace_event_order_id]
      exact hid
    have hflago : ord.is_confirmed_iceberg = order.is_confirmed_iceberg := by
      rw [← hord]
      exact add_replace_event_is_confirmed order _ ts _
    have hlk2 : ∀ j, (d1.setOrder oid ord).lookupOrder j =
        if j = oid then some ord else d.lookupOrder j := by
      intro j
      rw [lookupOrder_setOrder]
      by_cases hj : j = oid
      · rw [if_pos hj, if_pos hj]
      · rw [if_neg hj, if_neg hj, lookupOrder_congr d d1 hact1]
    rcases analyze_cases (d1.setOrder oid ord) ord ts with hcase | ⟨hunconf, hcase⟩
    · rw [hcase] at he
      rw [he]
      have hnot2 : (d1.setOrder oid ord).notifications = d.notifications := by
        rw [setOrder_notifications, hnot1]
      refine ⟨?_, ?_, ?_, ?_, ?_⟩
      · intro k o hk
        rw [hlk2 k] at hk
        by_cases hko : k = oid
        · rw [if_pos hko] at hk
          obtain rfl := Option.some.inj hk
          rw [hido, hko]
        · rw [if_neg hko] at hk
          exact hwf k o hk
      · intro hL
        obtain ⟨hconf, hok⟩ := hL
        constructor
        · intro o' ho' hc'
          rw [hnot2]
          rw [hlk2 i] at ho'
          by_cases hio : i = oid
          · rw [if_pos hio] at ho'
            obtain rfl := Option.some.inj ho'
            subst hio
            refine hconf order hl ?_
            rw [← hflago]
            exact hc'
          · rw [if_neg hio] at ho'
            exact hconf o' ho' hc'
        · rw [hnot2]
          exact hok
      · intro hB
        obtain ⟨hle, hz⟩ := hB
        constructor
        · rw [hnot2]
          exact hle
        · intro o' ho' hc'
          rw [hnot2]
          rw [hlk2 i] at ho'
          by_cases hio : i = oid
          · rw [if_pos hio] at ho'
            obtain rfl := Option.some.inj ho'
            subst hio
            refine hz order hl ?_
            rw [← hflago]
            exact hc'
          · rw [if_neg hio] at ho'
            exact hz o' ho' hc'
      · intro hN
        obtain ⟨hn, hz⟩ := hN
        have hio : i ≠ oid := by
          intro hh
          rw [hh, hl] at hn
          cases hn
        constructor
        · rw [hlk2 i, if_neg hio]
          exact hn
        · rw [hnot2]
          exact hz
      · intro o' ho'
        rw [hlk2 i] at ho'
        by_cases hio : i = oid
        · rw [if_pos hio] at ho'
          obtain rfl := Option.some.inj ho'
          subst hio
          refine ⟨order, hl, fun hc => ?_⟩
          rw [hflago]
          exact hc
        · rw [if_neg hio] at ho'
          exact ⟨o', ho', fun hc => hc⟩
    · rw [hcase] at he
      rw [he]
      have hnotB : ((d1.setOrder oid ord).confirm_iceberg ord ts).1.notifications =
          d.notifications ++ [⟨.detection, oid⟩] := by
        rw [confirm_iceberg_fst_notifications, setOrder_notifications, hnot1, hido]
      have hlkB : ∀ j, ((d1.setOrder oid ord).confirm_iceberg ord ts).1.lookupOrder j =
          if j = oid then some { ord with is_confirmed_iceberg := true, iceberg_start_time := some ts, last_reported_filled := ord.total_filled }
          else d.lookupOrder j := by
        intro j
        rw [confirm_iceberg_fst_lookup]
        by_cases hj : j = oid
        · rw [if_pos (show j = ord.order_id by rw [hido]; exact hj), if_pos hj]
        · rw [if_neg (show ¬ j = ord.order_id by rw [hido]; exact hj), if_neg hj,
            hlk2 j, if_neg hj]
      have horderflag : order.is_confirmed_iceberg = false := by
        rw [← hflago]
        exact hunconf
      refine ⟨?_, ?_, ?_, ?_, ?_⟩
      · intro k o hk
        rw [hlkB k] at hk
        by_cases hko : k = oid
        · rw [if_pos hko] at hk
          obtain rfl := Option.some.inj hk
          dsimp only
          rw [hido, hko]
        · rw [if_neg hko] at hk
          exact hwf k o hk
      · intro hL
        obtain ⟨hconf, hok⟩ := hL
        constructor
        · intro o' ho' hc'
          rw [hnotB, hasDetection_append]
          by_cases hio : i = oid
          · subst hio
            rw [hasDetection_detection_self, Bool.or_true]
          · rw [hlkB i, if_neg hio] at ho'
            rw [hconf o' ho' hc', Bool.true_or]
        · rw [hnotB, progressOkFrom_append, hok, Bool.true_and]
          exact progressOkFrom_detection i _ oid
      · intro hB
        obtain ⟨hle, hz⟩ := hB
        by_cases hio : i = oid
        · subst hio
          have h0 : detCount d.notifications i = 0 := hz order hl horderflag
          constructor
          · rw [hnotB, detCount_append, h0, detCount_detection, if_pos rfl]
          · intro o' ho' hc'
            rw [hlkB i, if_pos rfl] at ho'
            obtain rfl := Option.some.inj ho'
            simp at hc'
        · constructor
          · rw [hnotB, detCount_append, detCount_detection,
              if_neg (fun hh => hio hh.symm), Nat.add_zero]
            exact hle
          · intro o' ho' hc'
            rw [hlkB i, if_neg hio] at ho'
            rw [hnotB, detCount_append, detCount_detection,
              if_neg (fun hh => hio hh.symm), Nat.add_zero]
            exact hz o' ho' hc'
      · intro hN
        obtain ⟨hn, hz⟩ := hN
        have hio : i ≠ oid := by
          intro hh
          rw [hh, hl] at hn
          cases hn
        constructor
        · rw [hlkB i, if_neg hio]
          exact hn
        · rw [hnotB, detCount_append, detCount_detection,
            if_neg (fun hh => hio hh.symm), Nat.add_zero]
          exact hz
      · intro o' ho'
        rw [hlkB i] at ho'
        by_cases hio : i = oid
        · rw [if_pos hio] at ho'
          obtain rfl := Option.some.inj ho'
          subst hio
          exact ⟨order, hl, fun hc => rfl⟩
        · rw [if_neg hio] at ho'
          exact ⟨o', ho', fun hc => hc⟩

end MBO

namespace MBO

theorem process_cancel_order_tame (d : Detector) (oid : Nat) (ts : ℚ) (hwf : d.KeyWF) :
    (d.process_cancel_order oid ts).KeyWF ∧
    ∀ i, Detector.TameStep d (d.process_cancel_order oid ts) i := by
  cases hl : d.lookupOrder oid with
  | none =>
    have he : d.process_cancel_order oid ts = d := by
      unfold Detector.process_cancel_order
      rw [hl]
    rw [he]
    exact ⟨hwf, fun i => tameStep_refl d i⟩
  | some order =>
    obtain ⟨hact, hnot⟩ := foldl_removeOrderAt_proj oid order.price_history d
    have key : ∃ d2 : Detector,
        (d2.notifications = d.notifications ∨
         d2.notifications = d.notifications ++ [⟨.completion, oid⟩]) ∧
        (∀ j, j ≠ oid → d2.lookupOrder j = d.lookupOrder j) ∧
        (∀ o', d2.lookupOrder oid = some o' →
          o'.is_confirmed_iceberg = order.is_confirmed_iceberg) ∧
        d.process_cancel_order oid ts = d2.cleanup_order oid := by
      unfold Detector.process_cancel_order
      rw [hl]
      dsimp only
      by_cases hc : order.is_confirmed_iceberg = true
      · rw [if_pos hc]
        refine ⟨_, Or.inr ?_, ?_, ?_, rfl⟩
        · dsimp only
          rw [push_notifications]
          dsimp only
          rw [setOrder_notifications, hnot]
        · intro j hj
          unfold Detector.lookupOrder Detector.setOrder Detector.push
          dsimp only
          rw [lookupA_setA, if_neg hj, hact]
        · intro o' ho'
          unfold Detector.lookupOrder Detector.setOrder Detector.push at ho'
          dsimp only at ho'
          rw [lookupA_setA, if_pos rfl] at ho'
          obtain rfl := Option.some.inj ho'
          rfl
      · rw [if_neg hc]
        refine ⟨_, Or.inl ?_, ?_, ?_, rfl⟩
        · exact hnot
        · intro j hj
          unfold Detector.lookupOrder
          rw [hact]
        · intro o' ho'
          unfold Detector.lookupOrder at ho'
          rw [hact] at ho'
          have : d.lookupOrder oid = some o' := ho'
          rw [hl] at this
          obtain rfl := Option.some.inj this
          rfl
    obtain ⟨d2, hnots, hlkne, hlkoid, he⟩ := key
    obtain ⟨hnot2, hlk2⟩ := cleanup_order_spec d2 oid
    rw [he]
    constructor
    · intro k o hk
      rw [hlk2 k] at hk
      by_cases hko : k = oid
      · rw [if_pos hko] at hk
        cases hk
      · rw [if_neg hko, hlkne k hko] at hk
        exact hwf k o hk
    · intro i
      constructor
      · rcases hnots with h2 | h2
        · exact ⟨[], by rw [hnot2, h2, List.append_nil], by simp, by simp⟩
        · refine ⟨[⟨.completion, oid⟩], by rw [hnot2, h2], ?_, ?_⟩
          · intro n hn
            rw [List.mem_singleton] at hn
            subst hn
            simp
          · intro n hn hk
            rw [List.mem_singleton] at hn
            subst hn
            simp at hk
      · intro o' ho'
        rw [hlk2 i] at ho'
        by_cases hio : i = oid
        · rw [if_pos hio] at ho'
          cases ho'
        · rw [if_neg hio, hlkne i hio] at ho'
          exact ⟨o', ho', rfl⟩

end MBO

namespace MBO

theorem step_facts (d : Detector) (e : Event) (ts : ℚ) (i : Nat) (hwf : d.KeyWF) :
    (d.step e ts).KeyWF ∧
    (d.LifecycleInv i → (d.step e ts).LifecycleInv i) ∧
    (e.isNewOrderFor i = false → d.DetectionBudget i → (d.step e ts).DetectionBudget i) ∧
    (e.isNewOrderFor i = false → d.NeverTracked i → (d.step e ts).NeverTracked i) ∧
    (e.isNewOrderFor i = true → d.NeverTracked i → (d.step e ts).DetectionBudget i) ∧
    (e.isNewOrderFor i = false → d.TrackMono (d.step e ts) i) := by
  cases e with
  | mbo et oid pr szx tid =>
    cases et with
    | ask_new =>
      obtain ⟨h1, h2, h3, h4, h5, h6⟩ := process_new_order_facts d oid false pr szx tid ts i hwf
      have hc : ((oid == i) = false) → i ≠ oid := by
        intro hne hh
        rw [hh, beq_self_eq_true] at hne
        cases hne
      exact ⟨h1, h2, fun hne => h3 (hc hne), fun hne => h4 (hc hne),
        fun _ _ => h5 (by assumption), fun hne => h6 (hc hne)⟩
    | bid_new =>
      obtain ⟨h1, h2, h3, h4, h5, h6⟩ := process_new_order_facts d oid true pr szx tid ts i hwf
      have hc : ((oid == i) = false) → i ≠ oid := by
        intro hne hh
        rw [hh, beq_self_eq_true] at hne
        cases hne
      exact ⟨h1, h2, fun hne => h3 (hc hne), fun hne => h4 (hc hne),
        fun _ _ => h5 (by assumption), fun hne => h6 (hc hne)⟩
    | replace =>
      obtain ⟨h1, h2, h3, h4, h5⟩ := process_replace_order_facts d oid pr szx ts i hwf
      exact ⟨h1, h2, fun _ => h3, fun _ => h4,
        fun habs => absurd habs (by simp [Event.isNewOrderFor]), fun _ => h5⟩
    | cancel =>
      obtain ⟨hwf', ht⟩ := process_cancel_order_tame d oid ts hwf
      obtain ⟨htm, hlife, hbud, hnt⟩ := tameStep_facts d _ i (ht i)
      exact ⟨hwf', hlife, fun _ => hbud, fun _ => hnt,
        fun habs => absurd habs (by simp [Event.isNewOrderFor]), fun _ => htm⟩
  | trade p s b aid pid =>
    obtain ⟨hwf', ht⟩ := handle_trades_tame d p s b aid pid ts hwf
    obtain ⟨htm, hlife, hbud, hnt⟩ := tameStep_facts d _ i (ht i)
    exact ⟨hwf', hlife, fun _ => hbud, fun _ => hnt,
      fun habs => absurd habs (by simp [Event.isNewOrderFor]), fun _ => htm⟩
  | depth b p s =>
    obtain ⟨hwf', ht⟩ := update_depth_tame d b p s hwf
    obtain ⟨htm, hlife, hbud, hnt⟩ := tameStep_facts d _ i (ht i)
    exact ⟨hwf', hlife, fun _ => hbud, fun _ => hnt,
      fun habs => absurd habs (by simp [Event.isNewOrderFor]), fun _ => htm⟩
  | interval =>
    obtain ⟨hwf', ht⟩ := cleanup_old_orders_tame d ts hwf
    obtain ⟨htm, hlife, hbud, hnt⟩ := tameStep_facts d _ i (ht i)
    exact ⟨hwf', hlife, fun _ => hbud, fun _ => hnt,
      fun habs => absurd habs (by simp [Event.isNewOrderFor]), fun _ => htm⟩

theorem init_keyWF (sm pips t0 : ℚ) : (Detector.init sm pips t0).KeyWF := by
  intro k o h
  have hnone : (Detector.init sm pips t0).lookupOrder k = none := rfl
  rw [hnone] at h
  cases h

theorem init_neverTracked (sm pips t0 : ℚ) (i : Nat) :
    (Detector.init sm pips t0).NeverTracked i := ⟨rfl, rfl⟩

theorem init_lifecycle (sm pips t0 : ℚ) (i : Nat) :
    (Detector.init sm pips t0).LifecycleInv i := by
  constructor
  · intro o h
    have hnone : (Detector.init sm pips t0).lookupOrder i = none := rfl
    rw [hnone] at h
    cases h
  · rfl

theorem run_append (d : Detector) (l1 l2 : List (Event × ℚ)) :
    d.run (l1 ++ l2) = (d.run l1).run l2 := by
  induction l1 generalizing d with
  | nil => rfl
  | cons et rest ih =>
    obtain ⟨e, ts⟩ := et
    rw [List.cons_append]
    exact ih (d.step e ts)

theorem run_keyWF_lifecycle (evs : List (Event × ℚ)) (i : Nat) :
    ∀ d : Detector, d.KeyWF → d.LifecycleInv i →
      (d.run evs).KeyWF ∧ (d.run evs).LifecycleInv i := by
  induction evs with
  | nil => intro d hwf hl; exact ⟨hwf, hl⟩
  | cons et rest ih =>
    obtain ⟨e, ts⟩ := et
    intro d hwf hl
    obtain ⟨hwf', hlife, _, _, _, _⟩ := step_facts d e ts i hwf
    exact ih (d.step e ts) hwf' (hlife hl)

theorem run_trackMono (evs : List (Event × ℚ)) (i : Nat) :
    ∀ d : Detector, d.KeyWF → (∀ x ∈ evs, (x.1).isNewOrderFor i = false) →
      d.TrackMono (d.run evs) i := by
  induction evs with
  | nil => intro d hwf hno; exact trackMono_refl d i
  | cons et rest ih =>
    obtain ⟨e, ts⟩ := et
    intro d hwf hno
    have he : e.isNewOrderFor i = false := hno (e, ts) (List.mem_cons_self _ _)
    obtain ⟨hwf', _, _, _, _, htm⟩ := step_facts d e ts i hwf
    exact trackMono_trans d (d.step e ts) _ i (htm he)
      (ih (d.step e ts) hwf' (fun x hx => hno x (List.mem_cons_of_mem _ hx)))

theorem newOrderCount_cons (e : Event) (ts : ℚ) (rest : List (Event × ℚ)) (i : Nat) :
    newOrderCount ((e, ts) :: rest) i =
      (if e.isNewOrderFor i = true then 1 else 0) + newOrderCount rest i := by
  unfold newOrderCount
  rw [List.filter_cons]
  dsimp only
  by_cases h : e.isNewOrderFor i = true
  · rw [if_pos h, if_pos h, List.length_cons]
    exact Nat.add_comm _ 1
  · rw [if_neg h, if_neg h]
    exact (Nat.zero_add _).symm

theorem neverTracked_budget (d : Detector) (i : Nat) (h : d.NeverTracked i) :
    d.DetectionBudget i := by
  obtain ⟨hn, hz⟩ := h
  exact ⟨by rw [hz]; exact Nat.zero_le 1, fun o ho hc => hz⟩

theorem run_budget (evs : List (Event × ℚ)) (i : Nat) :
    ∀ d : Detector, d.KeyWF →
      ((d.NeverTracked i ∧ newOrderCount evs i ≤ 1) ∨
       (d.DetectionBudget i ∧ newOrderCount evs i = 0)) →
      (d.run evs).DetectionBudget i := by
  induction evs with
  | nil =>
    intro d hwf h
    rcases h with ⟨hn, _⟩ | ⟨hb, _⟩
    · exact neverTracked_budget d i hn
    · exact hb
  | cons et rest ih =>
    obtain ⟨e, ts⟩ := et
    intro d hwf h
    obtain ⟨hwf', _, hbud, hnt, hfresh, _⟩ := step_facts d e ts i hwf
    have hcnt := newOrderCount_cons e ts rest i
    cases hne : e.isNewOrderFor i with
    | false =>
      rcases h with ⟨hn, hc⟩ | ⟨hb, hc⟩
      · refine ih (d.step e ts) hwf' (Or.inl ⟨hnt hne hn, ?_⟩)
        rw [hcnt, hne] at hc
        simpa using hc
      · refine ih (d.step e ts) hwf' (Or.inr ⟨hbud hne hb, ?_⟩)
        rw [hcnt, hne] at hc
        simpa using hc
    | true =>
      rcases h with ⟨hn, hc⟩ | ⟨hb, hc⟩
      · refine ih (d.step e ts) hwf' (Or.inr ⟨hfresh hne hn, ?_⟩)
        rw [hcnt, hne] at hc
        simp at hc
        omega
      · rw [hcnt, hne] at hc
        simp at hc

end MBO

namespace MBO

/-- C3 counterexample: when the feed reuses an order id, `process_new_order`
overwrites the tracked order with a fresh unconfirmed one.  On the trace
`c3BadEvents` order id 1 is confirmed after three events, the fourth event
(a second new order with id 1) reverts `is_confirmed_iceberg` to `false`,
and by the end two detection messages have been emitted for id 1. -/
theorem c3_counterexample :
    ((((Detector.init 1 (1/100) 0).run (c3BadEvents.take 3)).lookupOrder 1).map
      IcebergOrder.is_confirmed_iceberg) = some true ∧
    ((((Detector.init 1 (1/100) 0).run (c3BadEvents.take 4)).lookupOrder 1).map
      IcebergOrder.is_confirmed_iceberg) = some false ∧
    detCount ((Detector.init 1 (1/100) 0).run c3BadEvents).notifications 1 = 2 := by
  refine ⟨?_, ?_, ?_⟩ <;> with_unfolding_all rfl

/-- C3 (amended): provided the feed admits an order id at most once (no id
reuse), confirmation is monotone and detection fires at most once: over any
event run from a fresh engine containing at most one new-order event for id
`i`, the log holds at most one detection message for `i`, and a confirmed
order stays confirmed across any further events that do not re-admit `i`. -/
theorem c3_confirmation_monotone_and_single_detection (sm pips t0 : ℚ)
    (evs1 evs2 : List (Event × ℚ)) (i : Nat)
    (hcount : newOrderCount (evs1 ++ evs2) i ≤ 1)
    (hno : ∀ x ∈ evs2, (x.1).isNewOrderFor i = false) :
    detCount ((Detector.init sm pips t0).run (evs1 ++ evs2)).notifications i ≤ 1 ∧
    ((Detector.init sm pips t0).run evs1).FlagMono
      ((Detector.init sm pips t0).run (evs1 ++ evs2)) i := by
  have hwf0 := init_keyWF sm pips t0
  constructor
  · exact (run_budget (evs1 ++ evs2) i (Detector.init sm pips t0) hwf0
      (Or.inl ⟨init_neverTracked sm pips t0 i, hcount⟩)).1
  · rw [run_append]
    have hwf1 := (run_keyWF_lifecycle evs1 i (Detector.init sm pips t0) hwf0
      (init_lifecycle sm pips t0 i)).1
    exact flagMono_of_trackMono _ _ i
      (run_trackMono evs2 i ((Detector.init sm pips t0).run evs1) hwf1 hno)

/-- Witness for C3's amended theorem on the concrete trace `c3Events`, split
after its single admission of id 1. -/
theorem c3_witness :
    newOrderCount (c3Events.take 2 ++ c3Events.drop 2) 1 ≤ 1 ∧
    (∀ x ∈ c3Events.drop 2, (x.1).isNewOrderFor 1 = false) ∧
    detCount ((Detector.init 1 (1/100) 0).run
      (c3Events.take 2 ++ c3Events.drop 2)).notifications 1 ≤ 1 := by
  have h1 : newOrderCount (c3Events.take 2 ++ c3Events.drop 2) 1 = 1 := by
    with_unfolding_all rfl
  have h2 : ∀ x ∈ c3Events.drop 2, (x.1).isNewOrderFor 1 = false := by
    intro x hx
    rw [show c3Events.drop 2 =
      [(Event.trade 100 10 false none (some 1), 3), (Event.mbo .cancel 1 0 0 none, 4)]
      from by with_unfolding_all rfl] at hx
    rcases List.mem_cons.mp hx with rfl | hx
    · rfl
    · rcases List.mem_cons.mp hx with rfl | hx
      · rfl
      · simp at hx
  exact ⟨h1.le, h2,
    (c3_confirmation_monotone_and_single_detection 1 (1/100) 0 (c3Events.take 2)
      (c3Events.drop 2) 1 h1.le h2).1⟩

/-- C4: a progress (execution-update) message is emitted by
`process_order_execution` only when the tracked order is already confirmed,
its post-fill `execution_percentage` is at least the 0.7 execution
threshold, and at least 20 units were filled since the last report; on
emission `last_reported_filled` is reset to the new `total_filled`.
Moreover, over any event run from a fresh engine no progress message for an
order ever precedes that order's detection message. -/
theorem c4_progress_gated_and_never_before_confirmation (d : Detector) (oid : Nat)
    (sz ts : ℚ) (o : IcebergOrder) (h : d.lookupOrder oid = some o)
    (hid : o.order_id = oid) (hth : d.execution_threshold = 7/10)
    (sm pips t0 : ℚ) (evs : List (Event × ℚ)) (i : Nat) :
    (progCount d.notifications oid <
        progCount (d.process_order_execution oid sz ts).notifications oid →
      o.is_confirmed_iceberg = true ∧
      7/10 ≤ (o.add_execution sz ts).execution_percentage ∧
      20 ≤ (o.add_execution sz ts).total_filled - o.last_reported_filled ∧
      (d.process_order_execution oid sz ts).notifications =
        d.notifications ++ [⟨.progress, oid⟩] ∧
      ∃ o', (d.process_order_execution oid sz ts).lookupOrder oid = some o' ∧
        o'.last_reported_filled = (o.add_execution sz ts).total_filled) ∧
    progressOkFrom i false ((Detector.init sm pips t0).run evs).notifications = true := by
  constructor
  · intro hlt
    rcases process_order_execution_cases d oid sz ts o h hid with hc | ⟨hconf, hpct, hdelta, hc⟩
    · exfalso
      rw [hc, setOrder_notifications] at hlt
      exact Nat.lt_irrefl _ hlt
    · refine ⟨hconf, by rw [← hth]; exact hpct, hdelta, ?_, ?_⟩
      · rw [hc, setOrder_notifications, push_notifications, setOrder_notifications]
      · rw [hc]
        exact ⟨{ o.add_execution sz ts with last_reported_filled := (o.add_execution sz ts).total_filled },
          by rw [lookupOrder_setOrder, if_pos rfl], rfl⟩
  · exact ((run_keyWF_lifecycle evs i (Detector.init sm pips t0)
      (init_keyWF sm pips t0) (init_lifecycle sm pips t0 i)).2).2

/-- Witness for C4 at the concrete confirmed order `c4Order` held by
`c4Detector`, a fill of 30 at time 5, and the concrete trace `c3Events`. -/
theorem c4_witness :
    c4Detector.lookupOrder 1 = some c4Order ∧
    c4Detector.execution_threshold = 7/10 ∧
    progressOkFrom 1 false ((Detector.init 1 (1/100) 0).run c3Events).notifications = true :=
  ⟨by with_unfolding_all rfl, by with_unfolding_all rfl,
   (c4_progress_gated_and_never_before_confirmation c4Detector 1 30 5 c4Order
     (by with_unfolding_all rfl) (by with_unfolding_all rfl) (by with_unfolding_all rfl)
     1 (1/100) 0 c3Events 1).2⟩

end MBO
